import Mathlib

/-!
Verification development for the envguard validation/parsing core.

The definitions below are a shallow embedding of the TypeScript source:
  * `src/validators.ts` (validator catalogue and `createValidator` factory),
  * `src/envguard.ts`   (`cleanEnv` aggregate pass and `createEnvProxy` guard),
  * `src/types.ts`      (error classes), `src/utils.ts` (`maskSecret`, tier helpers).

Modelling conventions:
  * JS strings are Lean `String` (ASCII fragment: `toLower`/`toUpper`/`trim`
    model the JS operations on ASCII data; Unicode case mapping and the wider
    JS `\s` class are outside the model).
  * JS numbers are `ℚ`.  `NaN` is modelled as `none` of an `Option`; the JS
    infinities are likewise mapped to `none` (noted at `toNumber`).  JS
    floating point rounding is not modelled: all claims use exactly
    representable values.
  * A JS value that may be `undefined` is an `Option`; an object field that
    is present-but-`undefined` is an association-list entry carrying `none`.
  * Platform builtins that the source merely calls are parameters:
    `JSON.parse` is an explicit function argument of the json validator and a
    caller-supplied `RegExp` is a test predicate plus display string.
    Regexes that are literals of the source are implemented concretely below.
  * Thrown `EnvError`s are `Except.error`.  Exceptions that are not
    `EnvError` (possible only for hand-made custom validators) are outside
    the model; every modelled parser fails only with `EnvErr`.
-/

/-- JS runtime values produced by the validators (strings, numbers, booleans,
null, arrays).  JSON objects are not needed by any modelled code path and are
omitted. -/
inductive Value where
  | vStr : String → Value
  | vNum : ℚ → Value
  | vBool : Bool → Value
  | vNull : Value
  | vArr : List Value → Value

/-- JS `===`/SameValueZero comparison as used by `Array.prototype.includes`:
structural on primitives, reference identity on arrays/objects.  Two array
values are never identical references in any modelled code path (a freshly
parsed value is compared against configuration constants), so array
comparison is constantly `false`. -/
def valueBeq : Value → Value → Bool
  | .vStr a, .vStr b => a == b
  | .vNum a, .vNum b => a == b
  | .vBool a, .vBool b => a == b
  | .vNull, .vNull => true
  | _, _ => false

/-- `choices.includes(result)` from the source. -/
def valueMem (r : Value) (cs : List Value) : Bool :=
  cs.any (fun c => valueBeq c r)

/-- Lowercasing as the JS `toLowerCase` on ASCII data (character map over
the string's characters). -/
def sLower (s : String) : String := String.mk (s.data.map Char.toLower)

/-- Uppercasing as the JS `toUpperCase` on ASCII data. -/
def sUpper (s : String) : String := String.mk (s.data.map Char.toUpper)

/-- JS `String.prototype.trim`: strip leading and trailing whitespace. -/
def sTrim (s : String) : String :=
  String.mk (((s.data.dropWhile Char.isWhitespace).reverse.dropWhile Char.isWhitespace).reverse)

/-- JS `String.prototype.length` (code points in the ASCII model). -/
def sLength (s : String) : Nat := s.data.length

/-- JS `substring(0, n)`. -/
def sTake (s : String) (n : Nat) : String := String.mk (s.data.take n)

/-- JS `substring(n)`. -/
def sDrop (s : String) (n : Nat) : String := String.mk (s.data.drop n)

/-- JS `String.prototype.startsWith`. -/
def sStartsWith (s p : String) : Bool := p.data.isPrefixOf s.data

/-- JS `Array.prototype.join` on strings. -/
def sIntercalate (sep : String) : List String → String
  | [] => ""
  | x :: rest => rest.foldl (fun acc y => acc ++ sep ++ y) x

/-- Leftmost-match splitting loop of `sSplitOn`, fuelled by the input
length. -/
def splitOnListF (sep : List Char) : Nat → List Char → List Char → List (List Char)
  | 0, cs, acc => [acc.reverse ++ cs]
  | _ + 1, [], acc => [acc.reverse]
  | fuel + 1, c :: rest, acc =>
    if sep.isPrefixOf (c :: rest) then
      acc.reverse :: splitOnListF sep fuel (List.drop sep.length (c :: rest)) []
    else splitOnListF sep fuel rest (c :: acc)

/-- JS `String.prototype.split` with a string separator (an empty separator
splits into single characters). -/
def sSplitOn (s sep : String) : List String :=
  if sep.data.isEmpty then s.data.map (fun c => String.mk [c])
  else (splitOnListF sep.data (s.data.length + 1) s.data []).map String.mk

/-- The raw key/value source (`env`).  A key that is absent models a JS
`undefined` entry. -/
abbrev EnvMap : Type := List (String × String)

/-- First-match association-list lookup, the JS property read `env[key]`. -/
def assocLookup {α : Type} : List (String × α) → String → Option α
  | [], _ => none
  | (k', v) :: rest, k => if k' = k then some v else assocLookup rest k

/-- Set membership on string lists (JS `Set.has` / `Array.includes`). -/
def member (x : String) : List String → Bool
  | [] => false
  | a :: r => if a = x then true else member x r

/-- `getNodeEnv` from `src/utils.ts`: `env['NODE_ENV'] ?? 'development'`. -/
def getNodeEnv (env : EnvMap) : String :=
  (assocLookup env "NODE_ENV").getD "development"

/-- The `EnvError` class of `src/types.ts`: message, key and the optional
offending raw value. -/
structure EnvErr where
  message : String
  key : String
  value? : Option String := none
deriving DecidableEq, Repr

/-- `EnvMissingError` of `src/types.ts`. -/
def envMissingError (key : String) : EnvErr :=
  { message := "Missing required environment variable: " ++ key, key := key }

/-- `EnvValidationError` of `src/types.ts`: prefixes the reason with
`Invalid value for <key>: `. -/
def validationErr (key msg : String) (value? : Option String) : EnvErr :=
  { message := "Invalid value for " ++ key ++ ": " ++ msg, key := key, value? := value? }

/-- Decimal rendering of a rational for diagnostic messages (JS string
interpolation of a number).  Exact for integers, which is the only case any
modelled message reaches; a non-integral value is rendered as a fraction
whereas JS would print a decimal expansion. -/
def showQ (q : ℚ) : String :=
  if q.den = 1 then toString q.num else toString q.num ++ "/" ++ toString q.den

/-- JS `String(v)` on a validator output value, used by `choices.join(', ')`. -/
def showValue : Value → String
  | .vStr s => s
  | .vNum q => showQ q
  | .vBool b => if b then "true" else "false"
  | .vNull => "null"
  | .vArr _ => "[array]"

/-- The `must be one of: ...` validation error shared by every choices check. -/
def mustBeOneOf (key : String) (cs : List Value) (value : String) : EnvErr :=
  validationErr key ("must be one of: " ++ sIntercalate ", " (cs.map showValue)) (some value)

/-- `maskSecret` of `src/utils.ts` on a definitely-present string, with the
default `visibleChars = 4`. -/
def maskSecretStr (s : String) : String :=
  if sLength s ≤ 8 then String.mk (List.replicate (sLength s) '*')
  else sTake s 4 ++ String.mk (List.replicate (min (sLength s - 8) 10) '*')
    ++ sDrop s (sLength s - 4)

/-- `maskSecret` of `src/utils.ts` as called by `cleanEnv` on a
string-or-undefined: `undefined` renders as "[undefined]". -/
def maskSecret : Option String → String
  | none => "[undefined]"
  | some s => maskSecretStr s

/-- The partially resolved result object accumulated by the aggregate pass:
insertion-ordered fields, an entry `(k, none)` being a key that is present
with value `undefined`. -/
abbrev ResultMap : Type := List (String × Option Value)

/-- `ValidatorOptions` of `src/types.ts` (the cross-validator options; the
documentation-only fields `desc`/`example`/`docs` have no behavioural effect
and are omitted). -/
structure Opts where
  default? : Option Value := none
  devDefault? : Option Value := none
  testDefault? : Option Value := none
  choices? : Option (List Value) := none
  secret : Bool := false
  deprecated? : Option String := none
  requiredWhen? : Option (ResultMap → Bool) := none
  warnOnly : Bool := false

/-- Replace only the `choices` option. -/
def Opts.withChoices (o : Opts) (c : Option (List Value)) : Opts :=
  { o with choices? := c }

/-- The `Validator` interface of `src/types.ts`: the options record plus the
`parse(value, key, env)` method. -/
structure Validator where
  opts : Opts
  parse : Option String → String → EnvMap → Except EnvErr Value

/-- The tiered-default resolution inside `createValidator.parse`
(`src/validators.ts` lines 193-207): testDefault in tier "test", else
devDefault outside "production", else default, else `EnvMissingError`. -/
def resolveDefaults (options : Opts) (key : String) (env : EnvMap) : Except EnvErr Value :=
  let nodeEnv := getNodeEnv env
  match (if nodeEnv = "test" then options.testDefault? else none) with
  | some t => .ok t
  | none =>
    match (if nodeEnv ≠ "production" then options.devDefault? else none) with
    | some d => .ok d
    | none =>
      match options.default? with
      | some d => .ok d
      | none => .error (envMissingError key)

/-- `createValidator` of `src/validators.ts`: route `undefined`/empty raw
values to the default policy, otherwise delegate to the type-specific
parser. -/
def createValidator (options : Opts) (parser : String → String → Except EnvErr Value) :
    Validator :=
  { opts := options,
    parse := fun value? key env =>
      match value? with
      | none => resolveDefaults options key env
      | some v => if v = "" then resolveDefaults options key env else parser v key }

/-- The `options.choices !== undefined && !options.choices.includes(result)`
check that the catalogue repeats after each type-specific parse, factored on
the choices list itself. -/
def checkChoicesL (choices? : Option (List Value)) (key rawValue : String) (result : Value) :
    Except EnvErr Value :=
  match choices? with
  | some cs =>
    if valueMem result cs then .ok result else .error (mustBeOneOf key cs rawValue)
  | none => .ok result

/-!
A small nondeterministic matcher used to transcribe the regex literals of
`src/validators.ts`.  A `Matcher` maps an input suffix to every suffix left
after one of its possible matches; a regex `test` succeeds iff some
alternative consumes the whole anchored input, which coincides with the
backtracking semantics of the JS engine on these patterns.
-/

/-- Nondeterministic prefix matcher: all residual suffixes. -/
def Matcher : Type := List Char → List (List Char)

/-- Empty pattern. -/
def mEps : Matcher := fun s => [s]

/-- Concatenation of patterns. -/
def mSeq (a b : Matcher) : Matcher := fun s => (a s).flatMap b

/-- Alternation of patterns. -/
def mAlt (a b : Matcher) : Matcher := fun s => a s ++ b s

/-- Single character from a class. -/
def mPred (p : Char → Bool) : Matcher := fun s =>
  match s with
  | [] => []
  | c :: rest => if p c then [rest] else []

/-- Single literal character. -/
def mChar (c : Char) : Matcher := mPred (fun x => x == c)

/-- A literal string of characters. -/
def mStr : List Char → Matcher
  | [] => mEps
  | c :: r => mSeq (mChar c) (mStr r)

/-- Exactly `n` repetitions. -/
def mRepExact (m : Matcher) : Nat → Matcher
  | 0 => mEps
  | n + 1 => mSeq m (mRepExact m n)

/-- At most `n` repetitions. -/
def mRepUpTo (m : Matcher) : Nat → Matcher
  | 0 => mEps
  | n + 1 => mAlt (mSeq m (mRepUpTo m n)) mEps

/-- Between `lo` and `hi` repetitions, the regex `{lo,hi}` quantifier. -/
def mRepRange (m : Matcher) (lo hi : Nat) : Matcher :=
  mSeq (mRepExact m lo) (mRepUpTo m (hi - lo))

/-- The `?` quantifier. -/
def mOpt (m : Matcher) : Matcher := mAlt m mEps

/-- All suffixes reachable by dropping a (possibly empty) run of class
characters: the greedy-or-shorter behaviours of `class*`. -/
def starSuffixes (p : Char → Bool) : List Char → List (List Char)
  | [] => [[]]
  | c :: rest => (c :: rest) :: (if p c then starSuffixes p rest else [])

/-- The `*` quantifier on a character class. -/
def mPredStar (p : Char → Bool) : Matcher := fun s => starSuffixes p s

/-- The `+` quantifier on a character class. -/
def mPredPlus (p : Char → Bool) : Matcher := mSeq (mPred p) (mPredStar p)

/-- Anchored full-string test: `^pattern$`. -/
def mMatch (m : Matcher) (s : String) : Bool := (m s.data).any List.isEmpty

/-- The class `[0-9a-fA-F]` (hex digit, case-insensitive regexes). -/
def hexDigitCI (c : Char) : Bool :=
  c.isDigit || ('a' ≤ c && c ≤ 'f') || ('A' ≤ c && c ≤ 'F')

/-- `UUID_REGEX` of `src/validators.ts` (flag `i`):
`[0-9a-f]{8}-[0-9a-f]{4}-[1-5][0-9a-f]{3}-[89ab][0-9a-f]{3}-[0-9a-f]{12}`. -/
def uuidMatcher : Matcher :=
  mSeq (mRepExact (mPred hexDigitCI) 8) (mSeq (mChar '-')
  (mSeq (mRepExact (mPred hexDigitCI) 4) (mSeq (mChar '-')
  (mSeq (mPred (fun c => '1' ≤ c && c ≤ '5'))
  (mSeq (mRepExact (mPred hexDigitCI) 3) (mSeq (mChar '-')
  (mSeq (mPred (fun c => c == '8' || c == '9' || c == 'a' || c == 'b' || c == 'A' || c == 'B'))
  (mSeq (mRepExact (mPred hexDigitCI) 3) (mSeq (mChar '-')
  (mRepExact (mPred hexDigitCI) 12))))))))))

/-- `UUID_REGEX.test(value)`. -/
def uuidTest (value : String) : Bool := mMatch uuidMatcher value

/-- The class `[^\s@]` of `EMAIL_REGEX`. -/
def emailChar (c : Char) : Bool := !c.isWhitespace && !(c == '@')

/-- `EMAIL_REGEX` of `src/validators.ts`: `^[^\s@]+@[^\s@]+\.[^\s@]+$`.
Since the classes exclude `@`, a match is exactly: a single `@` with a
non-empty class-only part before it, and a class-only part after it that
contains a `.` preceded and followed by at least one character. -/
def emailTest (value : String) : Bool :=
  match sSplitOn value "@" with
  | [a, r] =>
    let rcs := r.data
    a ≠ "" && a.data.all emailChar && rcs.all emailChar &&
      (List.range rcs.length).any (fun i =>
        rcs.getD i ' ' == '.' && decide (0 < i) && decide (i + 1 < rcs.length))
  | _ => false

/-- JS line terminators, the characters the regex `.` does not match. -/
def isLineTerminator (c : Char) : Bool :=
  c == '\n' || c == '\r' || c.toNat == 8232 || c.toNat == 8233

/-- `URL_REGEX` of `src/validators.ts` (flag `i`):
`^https?:\/\/[^\s/$.?#].[^\s]*$` — the scheme (case-insensitive), then one
character outside `[\s/$.?#]`, then any non-line-terminator, then non-space
characters to the end. -/
def urlTest (value : String) : Bool :=
  let ls := sLower value
  let afterScheme :=
    if sStartsWith ls "https://" then some (value.data.drop 8)
    else if sStartsWith ls "http://" then some (value.data.drop 7)
    else none
  match afterScheme with
  | none => false
  | some rest =>
    match rest with
    | c1 :: c2 :: tail =>
      !c1.isWhitespace && !(c1 == '/') && !(c1 == '$') && !(c1 == '.') &&
        !(c1 == '?') && !(c1 == '#') && !(isLineTerminator c2) &&
        tail.all (fun c => !c.isWhitespace)
    | _ => false

/-- One DNS label of `HOSTNAME_REGEX`: `(?!-)[A-Za-z0-9-]{1,63}(?<!-)`, that
is 1 to 63 alphanumeric-or-hyphen characters neither starting nor ending
with a hyphen. -/
def hostLabelOk (l : String) : Bool :=
  let cs := l.data
  decide (1 ≤ cs.length) && decide (cs.length ≤ 63) &&
    cs.all (fun c => c.isAlphanum || c == '-') &&
    !(cs.headD '-' == '-') && !(cs.getLastD '-' == '-')

/-- `HOSTNAME_REGEX` of `src/validators.ts`:
`(?=.{1,253}$)(?:label\.)*label` — a 1-253 character dot-separated sequence
of valid labels. -/
def hostnameTest (value : String) : Bool :=
  decide (1 ≤ sLength value) && decide (sLength value ≤ 253) &&
    (sSplitOn value ".").all hostLabelOk

/-- One octet of `IPV4_REGEX`: `25[0-5]|2[0-4][0-9]|[01]?[0-9][0-9]?`. -/
def ipv4OctetOk (o : String) : Bool :=
  let cs := o.data
  cs.all Char.isDigit &&
    (decide (cs.length = 1) || decide (cs.length = 2) ||
      (decide (cs.length = 3) &&
        (cs.headD '9' == '0' || cs.headD '9' == '1' ||
          (cs.headD '9' == '2' && decide (cs.foldl (fun n c => n * 10 + (c.toNat - 48)) 0 ≤ 255)))))

/-- `IPV4_REGEX` of `src/validators.ts`: four dot-separated octets. -/
def ipv4Test (value : String) : Bool :=
  match sSplitOn value "." with
  | [a, b, c, d] => ipv4OctetOk a && ipv4OctetOk b && ipv4OctetOk c && ipv4OctetOk d
  | _ => false

/-- A hex group `[0-9a-fA-F]{1,4}` of `IPV6_REGEX`. -/
def mH : Matcher := mRepRange (mPred hexDigitCI) 1 4

/-- `H:` group. -/
def mHc : Matcher := mSeq mH (mChar ':')

/-- `:H` group. -/
def mcH : Matcher := mSeq (mChar ':') mH

/-- `IPV6_REGEX` of `src/validators.ts`: the nine-way alternation over hex
groups followed by an optional `%zone` suffix, transcribed alternative by
alternative. -/
def ipv6Matcher : Matcher :=
  mSeq
    (mAlt (mSeq (mRepExact mHc 7) mH)
    (mAlt (mSeq (mRepRange mHc 1 7) (mChar ':'))
    (mAlt (mSeq (mRepRange mHc 1 6) mcH)
    (mAlt (mSeq (mRepRange mHc 1 5) (mRepRange mcH 1 2))
    (mAlt (mSeq (mRepRange mHc 1 4) (mRepRange mcH 1 3))
    (mAlt (mSeq (mRepRange mHc 1 3) (mRepRange mcH 1 4))
    (mAlt (mSeq (mRepRange mHc 1 2) (mRepRange mcH 1 5))
    (mAlt (mSeq mH (mSeq (mChar ':') (mRepRange mcH 1 6)))
    (mAlt (mSeq (mChar ':') (mRepRange mcH 1 7))
          (mStr [':', ':']))))))))))
    (mOpt (mSeq (mChar '%') (mPredPlus Char.isAlphanum)))

/-- `IPV6_REGEX.test(value)`. -/
def ipv6Test (value : String) : Bool := mMatch ipv6Matcher value

/-- Numeric value of a digit run. -/
def digitsVal (cs : List Char) : Nat := cs.foldl (fun n c => n * 10 + (c.toNat - 48)) 0

/-- Numeric value of one hex digit. -/
def hexDigitVal (c : Char) : Nat :=
  if c.isDigit then c.toNat - 48
  else if 'a' ≤ c && c ≤ 'f' then c.toNat - 87
  else c.toNat - 55

/-- Numeric value of a hex digit run. -/
def hexVal (cs : List Char) : Nat := cs.foldl (fun n c => n * 16 + hexDigitVal c) 0

/-- Optional exponent suffix of a JS decimal literal: `(e|E)(+|-)?digits`,
which must consume the rest of the input. -/
def parseExpPart (q : ℚ) (cs : List Char) : Option ℚ :=
  match cs with
  | [] => some q
  | c :: rest =>
    if c == 'e' || c == 'E' then
      match rest with
      | '+' :: ds =>
        if ds ≠ [] && ds.all Char.isDigit then some (q * (10 : ℚ) ^ digitsVal ds) else none
      | '-' :: ds =>
        if ds ≠ [] && ds.all Char.isDigit then some (q / (10 : ℚ) ^ digitsVal ds) else none
      | ds =>
        if ds ≠ [] && ds.all Char.isDigit then some (q * (10 : ℚ) ^ digitsVal ds) else none
    else none

/-- An unsigned JS decimal literal `digits[.digits][exp]` or `.digits[exp]`,
consuming the whole input. -/
def parseUnsignedDec (cs : List Char) : Option ℚ :=
  let intPart := cs.takeWhile Char.isDigit
  let rest1 := cs.dropWhile Char.isDigit
  match rest1 with
  | '.' :: r2 =>
    let frac := r2.takeWhile Char.isDigit
    let rest2 := r2.dropWhile Char.isDigit
    if intPart.isEmpty && frac.isEmpty then none
    else parseExpPart ((digitsVal intPart : ℚ) + (digitsVal frac : ℚ) / (10 : ℚ) ^ frac.length) rest2
  | _ =>
    if intPart.isEmpty then none else parseExpPart (digitsVal intPart : ℚ) rest1

/-- Unsigned part of `Number()` after sign stripping.  The literal
`Infinity` is a JS number outside `ℚ` and is modelled as a parse failure
(none), the same constructor that models `NaN`. -/
def toNumberUnsigned (t : List Char) : Option ℚ :=
  if t = "Infinity".data then none else parseUnsignedDec t

/-- Unsigned `Number()` body including the radix-prefixed forms. -/
def toNumberBase (t : List Char) : Option ℚ :=
  match t with
  | '0' :: 'x' :: r =>
    if !r.isEmpty && r.all hexDigitCI then some (hexVal r : ℚ) else none
  | '0' :: 'X' :: r =>
    if !r.isEmpty && r.all hexDigitCI then some (hexVal r : ℚ) else none
  | '0' :: 'b' :: r =>
    if !r.isEmpty && r.all (fun c => c == '0' || c == '1')
    then some (r.foldl (fun n c => n * 2 + (c.toNat - 48)) 0 : ℚ) else none
  | '0' :: 'B' :: r =>
    if !r.isEmpty && r.all (fun c => c == '0' || c == '1')
    then some (r.foldl (fun n c => n * 2 + (c.toNat - 48)) 0 : ℚ) else none
  | '0' :: 'o' :: r =>
    if !r.isEmpty && r.all (fun c => '0' ≤ c && c ≤ '7')
    then some (r.foldl (fun n c => n * 8 + (c.toNat - 48)) 0 : ℚ) else none
  | '0' :: 'O' :: r =>
    if !r.isEmpty && r.all (fun c => '0' ≤ c && c ≤ '7')
    then some (r.foldl (fun n c => n * 8 + (c.toNat - 48)) 0 : ℚ) else none
  | _ => toNumberUnsigned t

/-- Model of the JS `Number(string)` conversion used by the number and port
validators: trim, empty maps to 0, optional sign on a decimal literal or
`Infinity`, radix prefixes without sign.  `NaN` is `none`; the infinities
are also mapped to `none` (they are outside `ℚ`), which for the port
validator agrees with the source (`Number.isInteger(Infinity)` is false) and
for the number validator narrows the model by rejecting `"Infinity"`. -/
def toNumber (s : String) : Option ℚ :=
  let t := ((s.data.dropWhile Char.isWhitespace).reverse.dropWhile Char.isWhitespace).reverse
  match t with
  | [] => some 0
  | '+' :: r => toNumberUnsigned r
  | '-' :: r => (toNumberUnsigned r).map (fun q => -q)
  | _ => toNumberBase t

/-- `DURATION_UNITS` of `src/validators.ts`.  The catch-all case models the
non-null assertion `DURATION_UNITS[unit]!` on an unreachable key. -/
def DURATION_UNITS : String → ℚ
  | "ms" => 1
  | "s" => 1000
  | "m" => 60 * 1000
  | "h" => 60 * 60 * 1000
  | "d" => 24 * 60 * 60 * 1000
  | _ => 0

/-- `BYTES_UNITS` of `src/validators.ts` (1024-based). -/
def BYTES_UNITS : String → ℚ
  | "b" => 1
  | "kb" => 1024
  | "mb" => 1024 * 1024
  | "gb" => 1024 * 1024 * 1024
  | "tb" => 1024 * 1024 * 1024 * 1024
  | _ => 0

/-- The numeric capture `(\d+(?:\.\d+)?)` shared by `DURATION_REGEX` and
`BYTES_REGEX`: leading digits with an optional fraction, parsed exactly
(`parseFloat` on this shape).  Returns the amount and the unconsumed rest. -/
def scanAmount (cs : List Char) : Option (ℚ × List Char) :=
  let ds := cs.takeWhile Char.isDigit
  if ds.isEmpty then none
  else
    match cs.dropWhile Char.isDigit with
    | '.' :: r2 =>
      let fs := r2.takeWhile Char.isDigit
      if fs.isEmpty then some ((digitsVal ds : ℚ), '.' :: r2)
      else some ((digitsVal ds : ℚ) + (digitsVal fs : ℚ) / (10 : ℚ) ^ fs.length,
        r2.dropWhile Char.isDigit)
    | rest => some ((digitsVal ds : ℚ), rest)

/-- `DURATION_REGEX` of `src/validators.ts`:
`^(\d+(?:\.\d+)?)\s*(ms|s|m|h|d)?$` with flag `i`.  Yields the captured
amount and the unit lowered and defaulted to "ms"
(`(match[2] ?? 'ms').toLowerCase()`). -/
def durationScan (value : String) : Option (ℚ × String) :=
  match scanAmount value.data with
  | none => none
  | some (q, rest) =>
    match (rest.dropWhile Char.isWhitespace).map Char.toLower with
    | [] => some (q, "ms")
    | ['m', 's'] => some (q, "ms")
    | ['s'] => some (q, "s")
    | ['m'] => some (q, "m")
    | ['h'] => some (q, "h")
    | ['d'] => some (q, "d")
    | _ => none

/-- `BYTES_REGEX` of `src/validators.ts`:
`^(\d+(?:\.\d+)?)\s*(b|kb|mb|gb|tb)?$` with flag `i`, unit lowered and
defaulted to "b". -/
def bytesScan (value : String) : Option (ℚ × String) :=
  match scanAmount value.data with
  | none => none
  | some (q, rest) =>
    match (rest.dropWhile Char.isWhitespace).map Char.toLower with
    | [] => some (q, "b")
    | ['b'] => some (q, "b")
    | ['k', 'b'] => some (q, "kb")
    | ['m', 'b'] => some (q, "mb")
    | ['g', 'b'] => some (q, "gb")
    | ['t', 'b'] => some (q, "tb")
    | _ => none

/-- A caller-supplied `RegExp`: its `test` behaviour plus its `toString()`
rendering used in diagnostics. -/
structure RegExpM where
  test : String → Bool
  display : String

/-- `StringValidatorOptions` of `src/types.ts`. -/
structure StringOpts where
  base : Opts := {}
  minLength? : Option Nat := none
  maxLength? : Option Nat := none
  pattern? : Option RegExpM := none
  trim : Bool := false
  toLowerCase : Bool := false
  toUpperCase : Bool := false

/-- Replace only the `choices` option of string options. -/
def StringOpts.withChoices (o : StringOpts) (c : Option (List Value)) : StringOpts :=
  { o with base := o.base.withChoices c }

/-- `NumberValidatorOptions` of `src/types.ts`. -/
structure NumberOpts where
  base : Opts := {}
  min? : Option ℚ := none
  max? : Option ℚ := none
  integer : Bool := false

/-- Replace only the `choices` option of number options. -/
def NumberOpts.withChoices (o : NumberOpts) (c : Option (List Value)) : NumberOpts :=
  { o with base := o.base.withChoices c }

/-- `JsonValidatorOptions` of `src/types.ts` (`schema` is a predicate). -/
structure JsonOpts where
  base : Opts := {}
  schema? : Option (Value → Bool) := none

/-- Replace only the `choices` option of json options. -/
def JsonOpts.withChoices (o : JsonOpts) (c : Option (List Value)) : JsonOpts :=
  { o with base := o.base.withChoices c }

/-- `ArrayValidatorOptions` of `src/types.ts`. -/
structure ArrayOpts where
  base : Opts := {}
  separator? : Option String := none
  itemValidator? : Option Validator := none
  minItems? : Option Nat := none
  maxItems? : Option Nat := none
  unique : Bool := false

/-- Replace only the `choices` option of array options. -/
def ArrayOpts.withChoices (o : ArrayOpts) (c : Option (List Value)) : ArrayOpts :=
  { o with base := o.base.withChoices c }

/-- `RegexValidatorOptions` of `src/types.ts`: the pattern is mandatory. -/
structure RegexOpts where
  base : Opts := {}
  pattern : RegExpM

/-- Replace only the `choices` option of regex options. -/
def RegexOpts.withChoices (o : RegexOpts) (c : Option (List Value)) : RegexOpts :=
  { o with base := o.base.withChoices c }

/-- `EnumValidatorOptions` of `src/types.ts`: the closed `values` list. -/
structure EnumOpts where
  base : Opts := {}
  values : List String

/-- Replace only the `choices` option of enum options. -/
def EnumOpts.withChoices (o : EnumOpts) (c : Option (List Value)) : EnumOpts :=
  { o with base := o.base.withChoices c }

/-- `DurationValidatorOptions` of `src/types.ts` (`unit` one of
ms/s/m/h/d). -/
structure DurationOpts where
  base : Opts := {}
  unit? : Option String := none

/-- Replace only the `choices` option of duration options. -/
def DurationOpts.withChoices (o : DurationOpts) (c : Option (List Value)) : DurationOpts :=
  { o with base := o.base.withChoices c }

/-- `BytesValidatorOptions` of `src/types.ts` (`unit` one of B/KB/MB/GB/TB). -/
structure BytesOpts where
  base : Opts := {}
  unit? : Option String := none

/-- Replace only the `choices` option of bytes options. -/
def BytesOpts.withChoices (o : BytesOpts) (c : Option (List Value)) : BytesOpts :=
  { o with base := o.base.withChoices c }

/-- The `maxLength` and `pattern` checks of the string validator (source
order), producing the transformed result on success. -/
def strCheckPattern (o : StringOpts) (r value key : String) : Except EnvErr Value :=
  match o.pattern? with
  | some p =>
    if !(p.test r) then
      .error (validationErr key ("must match pattern " ++ p.display) (some value))
    else .ok (.vStr r)
  | none => .ok (.vStr r)

/-- The `maxLength` check of the string validator. -/
def strCheckMax (o : StringOpts) (r value key : String) : Except EnvErr Value :=
  match o.maxLength? with
  | some m =>
    if m < sLength r then
      .error (validationErr key ("must be at most " ++ toString m ++ " characters") (some value))
    else strCheckPattern o r value key
  | none => strCheckPattern o r value key

/-- The `str` validator body before its choices check: optional
trim → lowercase → uppercase, then the length and pattern checks. -/
def strPre (o : StringOpts) (value key : String) : Except EnvErr Value :=
  let r0 := if o.trim then sTrim value else value
  let r1 := if o.toLowerCase then sLower r0 else r0
  let r := if o.toUpperCase then sUpper r1 else r1
  match o.minLength? with
  | some m =>
    if sLength r < m then
      .error (validationErr key ("must be at least " ++ toString m ++ " characters") (some value))
    else strCheckMax o r value key
  | none => strCheckMax o r value key

/-- The `str` validator parser of `src/validators.ts`. -/
def strParserFn (o : StringOpts) (value key : String) : Except EnvErr Value :=
  Except.bind (strPre o value key) (checkChoicesL o.base.choices? key value)

/-- The `max` bound of the `num` validator. -/
def numPreMax (o : NumberOpts) (q : ℚ) (value key : String) : Except EnvErr Value :=
  match o.max? with
  | some m =>
    if m < q then .error (validationErr key ("must be at most " ++ showQ m) (some value))
    else .ok (.vNum q)
  | none => .ok (.vNum q)

/-- The `num` validator body before its choices check: `Number()` parse then
the integer flag and bounds. -/
def numPre (o : NumberOpts) (value key : String) : Except EnvErr Value :=
  match toNumber value with
  | none => .error (validationErr key "must be a valid number" (some value))
  | some q =>
    if o.integer && !(q.den == 1) then
      .error (validationErr key "must be an integer" (some value))
    else
      match o.min? with
      | some m =>
        if q < m then .error (validationErr key ("must be at least " ++ showQ m) (some value))
        else numPreMax o q value key
      | none => numPreMax o q value key

/-- The `num` validator parser of `src/validators.ts`. -/
def numParserFn (o : NumberOpts) (value key : String) : Except EnvErr Value :=
  Except.bind (numPre o value key) (checkChoicesL o.base.choices? key value)

/-- The `bool` validator parser of `src/validators.ts`: case-insensitive
membership in the fixed true/false sets.  It performs no choices check. -/
def boolParserFn (value key : String) : Except EnvErr Value :=
  let lower := sLower value
  if member lower ["1", "true", "t", "yes", "y", "on"] then .ok (.vBool true)
  else if member lower ["0", "false", "f", "no", "n", "off"] then .ok (.vBool false)
  else .error (validationErr key "must be a boolean value (1, 0, true, false, yes, no, on, off)" (some value))

/-- The `email` validator parser of `src/validators.ts`. -/
def emailParserFn (o : Opts) (value key : String) : Except EnvErr Value :=
  Except.bind
    (if !(emailTest value) then
      .error (validationErr key "must be a valid email address" (some value))
     else .ok (.vStr value))
    (checkChoicesL o.choices? key value)

/-- The `url` validator parser of `src/validators.ts`. -/
def urlParserFn (o : Opts) (value key : String) : Except EnvErr Value :=
  Except.bind
    (if !(urlTest value) then
      .error (validationErr key "must be a valid URL with protocol (http/https)" (some value))
     else .ok (.vStr value))
    (checkChoicesL o.choices? key value)

/-- The `host` validator parser of `src/validators.ts`: hostname or IPv4 or
IPv6. -/
def hostParserFn (o : Opts) (value key : String) : Except EnvErr Value :=
  Except.bind
    (if !(hostnameTest value || ipv4Test value || ipv6Test value) then
      .error (validationErr key "must be a valid hostname or IP address" (some value))
     else .ok (.vStr value))
    (checkChoicesL o.choices? key value)

/-- The `port` validator body before its choices check.  The bounds are read
as `options.min ?? 1` and `options.max ?? 65535`, exactly as in the source
parser. -/
def portPre (o : NumberOpts) (value key : String) : Except EnvErr Value :=
  match toNumber value with
  | none => .error (validationErr key "must be a valid port number" (some value))
  | some q =>
    if !(q.den == 1) then .error (validationErr key "must be a valid port number" (some value))
    else
      let mn := o.min?.getD 1
      let mx := o.max?.getD 65535
      if decide (q < mn) || decide (mx < q) then
        .error (validationErr key ("must be between " ++ showQ mn ++ " and " ++ showQ mx) (some value))
      else .ok (.vNum q)

/-- The `port` validator parser of `src/validators.ts`. -/
def portParserFn (o : NumberOpts) (value key : String) : Except EnvErr Value :=
  Except.bind (portPre o value key) (checkChoicesL o.base.choices? key value)

/-- The `json` validator parser of `src/validators.ts`, parametric in the
platform `JSON.parse` (`none` models a `SyntaxError`).  It performs no
choices check. -/
def jsonParserFn (jp : String → Option Value) (o : JsonOpts) (value key : String) :
    Except EnvErr Value :=
  match jp value with
  | none => .error (validationErr key "must be valid JSON" (some value))
  | some v =>
    match o.schema? with
    | some sch =>
      if !(sch v) then .error (validationErr key "does not match expected schema" (some value))
      else .ok v
    | none => .ok v

/-- The indexed item-validation loop of the `array` validator: the first
item failure is wrapped with its index and aborts the loop. -/
def parseItems (iv : Validator) (key value : String) : Nat → List String → Except EnvErr (List Value)
  | _, [] => .ok []
  | idx, it :: rest =>
    match iv.parse (some it) (key ++ "[" ++ toString idx ++ "]") [] with
    | .error e => .error (validationErr key ("item " ++ toString idx ++ ": " ++ e.message) (some value))
    | .ok v =>
      match parseItems iv key value (idx + 1) rest with
      | .error e => .error e
      | .ok vs => .ok (v :: vs)

/-- The `unique` check and item validation of the `array` validator. -/
def arrayAfterMax (o : ArrayOpts) (items : List String) (value key : String) :
    Except EnvErr Value :=
  if o.unique && !(items.dedup.length == items.length) then
    .error (validationErr key "must have unique items" (some value))
  else
    match o.itemValidator? with
    | some iv =>
      match parseItems iv key value 0 items with
      | .error e => .error e
      | .ok vs => .ok (.vArr vs)
    | none => .ok (.vArr (items.map Value.vStr))

/-- The `maxItems` check of the `array` validator. -/
def arrayAfterMin (o : ArrayOpts) (items : List String) (value key : String) :
    Except EnvErr Value :=
  match o.maxItems? with
  | some m =>
    if m < items.length then
      .error (validationErr key ("must have at most " ++ toString m ++ " items") (some value))
    else arrayAfterMax o items value key
  | none => arrayAfterMax o items value key

/-- The `array` validator parser of `src/validators.ts`: split on the
separator (default ","), trim items, drop empties, then the size checks and
optional per-item validation.  It performs no choices check. -/
def arrayParserFn (o : ArrayOpts) (value key : String) : Except EnvErr Value :=
  let separator := o.separator?.getD ","
  let items := ((sSplitOn value separator).map (fun s => sTrim s)).filter (fun s => !(s == ""))
  match o.minItems? with
  | some m =>
    if items.length < m then
      .error (validationErr key ("must have at least " ++ toString m ++ " items") (some value))
    else arrayAfterMin o items value key
  | none => arrayAfterMin o items value key

/-- The `uuid` validator parser of `src/validators.ts`.  Note the source
order: the choices membership test receives the raw `value`, and the
lowercase normalization is applied only to the returned result. -/
def uuidParserFn (o : Opts) (value key : String) : Except EnvErr Value :=
  if uuidTest value then
    Except.bind (checkChoicesL o.choices? key value (.vStr value))
      (fun _ => .ok (.vStr (sLower value)))
  else .error (validationErr key "must be a valid UUID" (some value))

/-- The `regex` validator parser of `src/validators.ts`. -/
def regexParserFn (o : RegexOpts) (value key : String) : Except EnvErr Value :=
  Except.bind
    (if !(o.pattern.test value) then
      .error (validationErr key ("must match pattern " ++ o.pattern.display) (some value))
     else .ok (.vStr value))
    (checkChoicesL o.base.choices? key value)

/-- The `enumValidator` parser of `src/validators.ts`: membership in the
caller-supplied `values` list.  It performs no choices check. -/
def enumParserFn (o : EnumOpts) (value key : String) : Except EnvErr Value :=
  if member value o.values then .ok (.vStr value)
  else .error (validationErr key ("must be one of: " ++ sIntercalate ", " o.values) (some value))

/-- The `duration` validator parser of `src/validators.ts`: scan the
`<number><unit>?` grammar, convert to milliseconds, divide by the output
unit's multiplier, then the choices check on the converted number. -/
def durationParserFn (o : DurationOpts) (value key : String) : Except EnvErr Value :=
  Except.bind
    (match durationScan value with
     | none =>
       .error (validationErr key "must be a valid duration (e.g., 100ms, 5s, 2m, 1h, 7d)" (some value))
     | some (amount, unit) =>
       .ok (.vNum (amount * DURATION_UNITS unit / DURATION_UNITS (o.unit?.getD "ms"))))
    (checkChoicesL o.base.choices? key value)

/-- The `bytes` validator parser of `src/validators.ts`: scan, convert to
bytes, divide by the output unit's multiplier (output unit lowercased),
then the choices check on the converted number. -/
def bytesParserFn (o : BytesOpts) (value key : String) : Except EnvErr Value :=
  Except.bind
    (match bytesScan value with
     | none =>
       .error (validationErr key "must be a valid byte size (e.g., 100B, 5KB, 2MB, 1GB)" (some value))
     | some (amount, unit) =>
       .ok (.vNum (amount * BYTES_UNITS unit / BYTES_UNITS (sLower (o.unit?.getD "B")))))
    (checkChoicesL o.base.choices? key value)

/-- The `str` validator. -/
def strV (o : StringOpts) : Validator := createValidator o.base (strParserFn o)

/-- The `num` validator. -/
def numV (o : NumberOpts) : Validator := createValidator o.base (numParserFn o)

/-- The `bool` validator. -/
def boolV (o : Opts) : Validator := createValidator o boolParserFn

/-- The `email` validator. -/
def emailV (o : Opts) : Validator := createValidator o (emailParserFn o)

/-- The `url` validator. -/
def urlV (o : Opts) : Validator := createValidator o (urlParserFn o)

/-- The `host` validator. -/
def hostV (o : Opts) : Validator := createValidator o (hostParserFn o)

/-- The `port` validator.  The source stores `{...options, min: min ?? 1,
max: max ?? 65535}` as `_options`; the merged bounds live outside the
cross-validator `Opts` and are read again inside `portPre`. -/
def portV (o : NumberOpts) : Validator := createValidator o.base (portParserFn o)

/-- The `json` validator, parametric in the platform `JSON.parse`. -/
def jsonV (jp : String → Option Value) (o : JsonOpts) : Validator :=
  createValidator o.base (jsonParserFn jp o)

/-- The `array` validator. -/
def arrayV (o : ArrayOpts) : Validator := createValidator o.base (arrayParserFn o)

/-- The `uuid` validator. -/
def uuidV (o : Opts) : Validator := createValidator o (uuidParserFn o)

/-- The `regex` validator. -/
def regexV (o : RegexOpts) : Validator := createValidator o.base (regexParserFn o)

/-- The `enumValidator` validator. -/
def enumV (o : EnumOpts) : Validator := createValidator o.base (enumParserFn o)

/-- The `duration` validator. -/
def durationV (o : DurationOpts) : Validator := createValidator o.base (durationParserFn o)

/-- The `bytes` validator. -/
def bytesV (o : BytesOpts) : Validator := createValidator o.base (bytesParserFn o)

/-- `ValidationError` of `src/types.ts`. -/
structure ValidationErr where
  key : String
  message : String
  value? : Option String := none
  isWarning : Bool := false
deriving DecidableEq, Repr

/-- The accumulating state of the aggregate pass in `cleanEnv`
(`src/envguard.ts`): the partial result object and the two diagnostic
lists. -/
structure PassState where
  result : ResultMap := []
  errors : List ValidationErr := []
  warnings : List ValidationErr := []

/-- The deprecation warning a field contributes (`src/envguard.ts` lines
56-63): only when `deprecated` is set and the raw value is present and
non-empty; the value is masked when `secret` is set. -/
def depWarnings (env : EnvMap) (key : String) (vd : Validator) : List ValidationErr :=
  match vd.opts.deprecated?, assocLookup env key with
  | some msg, some v =>
    if v ≠ "" then
      [{ key := key, message := "Deprecated: " ++ msg,
         value? := some (if vd.opts.secret then maskSecretStr v else v), isWarning := true }]
    else []
  | _, _ => []

/-- The `validationError` record built in the catch branch of `cleanEnv`
(lines 78-86): the caught error's message, the offending value masked when
`secret` is set, and the warning flag from `warnOnly`. -/
def mkVE (key : String) (vd : Validator) (e : EnvErr) : ValidationErr :=
  { key := key, message := e.message,
    value? := if vd.opts.secret then some (maskSecret e.value?) else e.value?,
    isWarning := vd.opts.warnOnly }

/-- The try/catch around `validator.parse` in `cleanEnv` (lines 73-97): on
success store the parsed value; on an `EnvError`, either downgrade to a
warning and store the static default (`warnOnly`) or record a hard error
and store nothing. -/
def parseStep (env : EnvMap) (key : String) (vd : Validator) (st : PassState) : PassState :=
  match vd.parse (assocLookup env key) key env with
  | .ok v => { st with result := st.result ++ [(key, some v)] }
  | .error e =>
    if vd.opts.warnOnly then
      { st with warnings := st.warnings ++ [mkVE key vd e],
                result := st.result ++ [(key, vd.opts.default?)] }
    else
      { st with errors := st.errors ++ [mkVE key vd e] }

/-- One iteration of the per-field loop of `cleanEnv` (lines 52-98):
deprecation warning, then the `requiredWhen` skip (predicate over the
partial result accumulated so far; on a false predicate with an
absent/empty raw value the static default is stored and parsing is
skipped), otherwise the parse step. -/
def processField (env : EnvMap) (st : PassState) (key : String) (vd : Validator) : PassState :=
  match vd.opts.requiredWhen? with
  | some pred =>
    if !(pred st.result) &&
        decide (assocLookup env key = none ∨ assocLookup env key = some "") then
      { st with warnings := st.warnings ++ depWarnings env key vd,
                result := st.result ++ [(key, vd.opts.default?)] }
    else parseStep env key vd { st with warnings := st.warnings ++ depWarnings env key vd }
  | none => parseStep env key vd { st with warnings := st.warnings ++ depWarnings env key vd }

/-- The whole per-field loop, in specification (insertion) order. -/
def runPass (env : EnvMap) (st : PassState) : List (String × Validator) → PassState
  | [] => st
  | (key, vd) :: rest => runPass env (processField env st key vd) rest

/-- The fixed allow-list built into `cleanEnv` (lines 34-50) minus the
caller-supplied part. -/
def SYSTEM_ALLOWED : List String :=
  ["NODE_ENV", "PATH", "HOME", "USER", "SHELL", "TERM", "LANG", "LC_ALL",
   "TZ", "PWD", "OLDPWD", "HOSTNAME", "LOGNAME", "_"]

/-- `EnvGuardOptions` of `src/types.ts` (the injected raw source is a
separate argument of the model's `cleanEnv`; the reporter is an external
observer of the returned diagnostic lists). -/
structure CleanOptions where
  strict : Bool := false
  warnOnExtra : Bool := false
  allowedExtra : List String := []

/-- The extra-key predicate of `cleanEnv` (line 102): not a spec key, not
allow-listed, not package-manager-injected. -/
def isExtraKey (specKeys allowedSet : List String) (k : String) : Bool :=
  !(member k specKeys) && !(member k allowedSet) && !(sStartsWith k "npm_")

/-- The diagnostics produced by the extra-key scan (lines 100-116), one per
matching raw-source key, warnings unless `strict`. -/
def extraDiags (specKeys allowedSet : List String) (strict : Bool) (env : EnvMap) :
    List ValidationErr :=
  (env.map Prod.fst).filterMap fun k =>
    if isExtraKey specKeys allowedSet k then
      some { key := k, message := "Unknown environment variable", isWarning := !strict }
    else none

/-- The frozen final result of `cleanEnv` (line 130): the resolved fields
spread first, then the three derived tier flags (which therefore shadow a
like-named field on property reads). -/
structure FinalResult where
  fields : ResultMap
  isProduction : Bool
  isDevelopment : Bool
  isTest : Bool

/-- What `cleanEnv` computes: the frozen result plus the two diagnostic
lists it hands to the reporter. -/
structure CleanOutput where
  final : FinalResult
  errors : List ValidationErr
  warnings : List ValidationErr

/-- `cleanEnv` of `src/envguard.ts`: run the per-field pass in spec order,
then the extra-key scan (hard errors under `strict`, warnings under plain
`warnOnExtra`), then freeze the result with the tier flags. -/
def cleanEnv (spec : List (String × Validator)) (env : EnvMap) (copts : CleanOptions) :
    CleanOutput :=
  let st := runPass env {} spec
  let specKeys := spec.map Prod.fst
  let allowedSet := copts.allowedExtra ++ SYSTEM_ALLOWED
  let extras :=
    if copts.warnOnExtra || copts.strict then extraDiags specKeys allowedSet copts.strict env
    else []
  { final :=
      { fields := st.result,
        isProduction := decide (getNodeEnv env = "production"),
        isDevelopment := decide (getNodeEnv env = "development"),
        isTest := decide (getNodeEnv env = "test") },
    errors := st.errors ++ (if copts.strict then extras else []),
    warnings := st.warnings ++ (if copts.strict then [] else extras) }

/-- The three derived flag names merged into the final result. -/
def FLAG_KEYS : List String := ["isProduction", "isDevelopment", "isTest"]

/-- The own property names of `Object.prototype`. The frozen result object
is a plain object, so it inherits exactly these members: JS `prop in target`
is true for them even when `target` has no such own property, and
`Reflect.get(target, prop)` then yields the inherited member (a function,
or the prototype object itself for `__proto__`) rather than `undefined`. -/
def OBJECT_PROTOTYPE_KEYS : List String :=
  ["constructor", "hasOwnProperty", "isPrototypeOf", "propertyIsEnumerable",
   "toLocaleString", "toString", "valueOf", "__proto__",
   "__defineGetter__", "__defineSetter__", "__lookupGetter__", "__lookupSetter__"]

/-- Own-property test on the frozen result: the three tier flags plus the
field mapping's keys. -/
def FinalResult.hasOwn (fr : FinalResult) (prop : String) : Bool :=
  member prop FLAG_KEYS || member prop (fr.fields.map Prod.fst)

/-- The JS `prop in target` test on the frozen result: an own property or
an inherited `Object.prototype` member. -/
def FinalResult.inTarget (fr : FinalResult) (prop : String) : Bool :=
  fr.hasOwn prop || member prop OBJECT_PROTOTYPE_KEYS

/-- The outcome of `Reflect.get(target, prop)` on the frozen result:
an own property's stored value, `undefined`, or an inherited
`Object.prototype` member (identified by its name; these are functions or
the prototype object, not values of the validator domain). -/
inductive ReadResult where
  | val : Value → ReadResult
  | undefined : ReadResult
  | inherited : String → ReadResult

/-- Property read on the frozen result (`Reflect.get`): own properties are
consulted first - the tier flags were spread last and shadow fields, and a
field entry holding `none` is an own property whose value is `undefined`,
so it reads as `undefined` without consulting the prototype. Only an
absent key falls through to the inherited `Object.prototype` members. -/
def FinalResult.read (fr : FinalResult) (prop : String) : ReadResult :=
  if prop = "isProduction" then .val (.vBool fr.isProduction)
  else if prop = "isDevelopment" then .val (.vBool fr.isDevelopment)
  else if prop = "isTest" then .val (.vBool fr.isTest)
  else
    match assocLookup fr.fields prop with
    | some (some v) => .val v
    | some none => .undefined
    | none => if member prop OBJECT_PROTOTYPE_KEYS then .inherited prop else .undefined

/-- The proxy handlers installed by `createEnvProxy` (`src/envguard.ts`
lines 140-188) on string property names: `get` returns the read outcome
together with whether the one undeclared-access `console.warn` fired;
`set`/`deleteProperty`/`defineProperty` unconditionally throw. -/
structure EnvProxy where
  get : String → ReadResult × Bool
  set : String → Except String Bool
  deleteProp : String → Except String Bool
  defineProp : String → Except String Bool

/-- `createEnvProxy` of `src/envguard.ts`: the warn test is
`!specKeys.has(prop) && !(prop in target)` where `specKeys` is the declared
spec keys plus the three flags, and `prop in target` also sees the
inherited `Object.prototype` members. -/
def createEnvProxy (envR : FinalResult) (spec : List (String × Validator)) : EnvProxy :=
  let specKeys := spec.map Prod.fst ++ FLAG_KEYS
  { get := fun prop =>
      (envR.read prop, !(member prop specKeys) && !(envR.inTarget prop)),
    set := fun prop => .error ("Cannot modify environment variable: " ++ prop),
    deleteProp := fun prop => .error ("Cannot delete environment variable: " ++ prop),
    defineProp := fun prop => .error ("Cannot define environment variable: " ++ prop) }

/-- The guarded value `cleanEnv` actually returns (line 137):
`createEnvProxy(finalResult, spec)`. -/
def cleanEnvGuarded (spec : List (String × Validator)) (env : EnvMap) (copts : CleanOptions) :
    EnvProxy :=
  createEnvProxy (cleanEnv spec env copts).final spec

theorem member_iff (x : String) (l : List String) : member x l = true ↔ x ∈ l := by
  induction l with
  | nil => simp [member]
  | cons a r ih =>
    by_cases h : a = x
    · subst h; simp [member]
    · simp [member, h, ih, List.mem_cons]
      intro hx
      exact absurd hx.symm h

theorem member_eq_false (x : String) (l : List String) (h : x ∉ l) : member x l = false := by
  cases hm : member x l with
  | false => rfl
  | true => exact absurd ((member_iff x l).mp hm) h

theorem assocLookup_append_left {α : Type} (l1 l2 : List (String × α)) (k : String)
    (h : k ∉ l1.map Prod.fst) : assocLookup (l1 ++ l2) k = assocLookup l2 k := by
  induction l1 with
  | nil => rfl
  | cons p rest ih =>
    obtain ⟨k', v⟩ := p
    simp only [List.map_cons, List.mem_cons, not_or] at h
    have hne : ¬(k' = k) := fun hk => h.1 hk.symm
    simp only [List.cons_append, assocLookup, if_neg hne]
    exact ih h.2

theorem assocLookup_append_right {α : Type} (l1 l2 : List (String × α)) (k : String)
    (h : k ∉ l2.map Prod.fst) : assocLookup (l1 ++ l2) k = assocLookup l1 k := by
  induction l1 with
  | nil =>
    simp only [List.nil_append, assocLookup]
    induction l2 with
    | nil => rfl
    | cons p rest ih =>
      obtain ⟨k', v⟩ := p
      simp only [List.map_cons, List.mem_cons, not_or] at h
      have hne : ¬(k' = k) := fun hk => h.1 hk.symm
      simp only [assocLookup, if_neg hne]
      exact ih h.2
  | cons p rest ih =>
    obtain ⟨k', v⟩ := p
    simp only [List.cons_append, assocLookup]
    by_cases hk : k' = k
    · simp [hk]
    · simp [hk, ih]

theorem choicesStep_char (pre : Except EnvErr Value) (cs : List Value) (key value : String)
    (r : Value) (h : Except.bind pre (checkChoicesL none key value) = .ok r) :
    Except.bind pre (checkChoicesL (some cs) key value) =
      if valueMem r cs then .ok r else .error (mustBeOneOf key cs value) := by
  cases pre with
  | error e => simp [Except.bind] at h
  | ok x =>
    simp only [Except.bind, checkChoicesL] at h ⊢
    injection h with h
    subst h
    rfl

theorem strParserFn_char (o : StringOpts) (cs : List Value) (value key : String) (r : Value)
    (h : strParserFn (o.withChoices none) value key = .ok r) :
    strParserFn (o.withChoices (some cs)) value key =
      if valueMem r cs then .ok r else .error (mustBeOneOf key cs value) :=
  choicesStep_char (strPre o value key) cs key value r h

theorem numParserFn_char (o : NumberOpts) (cs : List Value) (value key : String) (r : Value)
    (h : numParserFn (o.withChoices none) value key = .ok r) :
    numParserFn (o.withChoices (some cs)) value key =
      if valueMem r cs then .ok r else .error (mustBeOneOf key cs value) :=
  choicesStep_char (numPre o value key) cs key value r h

theorem emailParserFn_char (o : Opts) (cs : List Value) (value key : String) (r : Value)
    (h : emailParserFn (o.withChoices none) value key = .ok r) :
    emailParserFn (o.withChoices (some cs)) value key =
      if valueMem r cs then .ok r else .error (mustBeOneOf key cs value) :=
  choicesStep_char _ cs key value r h

theorem urlParserFn_char (o : Opts) (cs : List Value) (value key : String) (r : Value)
    (h : urlParserFn (o.withChoices none) value key = .ok r) :
    urlParserFn (o.withChoices (some cs)) value key =
      if valueMem r cs then .ok r else .error (mustBeOneOf key cs value) :=
  choicesStep_char _ cs key value r h

theorem hostParserFn_char (o : Opts) (cs : List Value) (value key : String) (r : Value)
    (h : hostParserFn (o.withChoices none) value key = .ok r) :
    hostParserFn (o.withChoices (some cs)) value key =
      if valueMem r cs then .ok r else .error (mustBeOneOf key cs value) :=
  choicesStep_char _ cs key value r h

theorem portParserFn_char (o : NumberOpts) (cs : List Value) (value key : String) (r : Value)
    (h : portParserFn (o.withChoices none) value key = .ok r) :
    portParserFn (o.withChoices (some cs)) value key =
      if valueMem r cs then .ok r else .error (mustBeOneOf key cs value) :=
  choicesStep_char (portPre o value key) cs key value r h

theorem regexParserFn_char (o : RegexOpts) (cs : List Value) (value key : String) (r : Value)
    (h : regexParserFn (o.withChoices none) value key = .ok r) :
    regexParserFn (o.withChoices (some cs)) value key =
      if valueMem r cs then .ok r else .error (mustBeOneOf key cs value) :=
  choicesStep_char _ cs key value r h

theorem durationParserFn_char (o : DurationOpts) (cs : List Value) (value key : String) (r : Value)
    (h : durationParserFn (o.withChoices none) value key = .ok r) :
    durationParserFn (o.withChoices (some cs)) value key =
      if valueMem r cs then .ok r else .error (mustBeOneOf key cs value) :=
  choicesStep_char _ cs key value r h

theorem bytesParserFn_char (o : BytesOpts) (cs : List Value) (value key : String) (r : Value)
    (h : bytesParserFn (o.withChoices none) value key = .ok r) :
    bytesParserFn (o.withChoices (some cs)) value key =
      if valueMem r cs then .ok r else .error (mustBeOneOf key cs value) :=
  choicesStep_char _ cs key value r h

theorem uuidParserFn_char (o : Opts) (cs : List Value) (value key : String) (r : Value)
    (h : uuidParserFn (o.withChoices none) value key = .ok r) :
    uuidParserFn (o.withChoices (some cs)) value key =
      if valueMem (.vStr value) cs then .ok (.vStr (sLower value))
      else .error (mustBeOneOf key cs value) := by
  unfold uuidParserFn at h ⊢
  by_cases ht : uuidTest value
  · simp only [ht, if_true]
    cases hm : valueMem (Value.vStr value) cs with
    | true => simp [checkChoicesL, Opts.withChoices, hm, Except.bind]
    | false => simp [checkChoicesL, Opts.withChoices, hm, Except.bind]
  · simp [ht] at h

theorem depWarnings_key (env : EnvMap) (key : String) (vd : Validator) :
    ∀ e ∈ depWarnings env key vd, e.key = key := by
  unfold depWarnings
  split
  · split
    · intro e he
      simp only [List.mem_singleton] at he
      subst he
      rfl
    · intro e he; simp at he
  · intro e he; simp at he

theorem depWarnings_empty (env : EnvMap) (key : String) (vd : Validator)
    (h : assocLookup env key = none ∨ assocLookup env key = some "") :
    depWarnings env key vd = [] := by
  cases hd : vd.opts.deprecated? with
  | none =>
    cases h with
    | inl h => unfold depWarnings; rw [hd, h]
    | inr h => unfold depWarnings; rw [hd, h]
  | some msg =>
    cases h with
    | inl h => unfold depWarnings; rw [hd, h]
    | inr h => unfold depWarnings; rw [hd, h]; simp

theorem parseStep_ok (env : EnvMap) (key : String) (vd : Validator) (st : PassState) (v : Value)
    (h : vd.parse (assocLookup env key) key env = .ok v) :
    parseStep env key vd st = { st with result := st.result ++ [(key, some v)] } := by
  unfold parseStep
  rw [h]

theorem parseStep_err_warn (env : EnvMap) (key : String) (vd : Validator) (st : PassState)
    (e : EnvErr) (h : vd.parse (assocLookup env key) key env = .error e)
    (hw : vd.opts.warnOnly = true) :
    parseStep env key vd st =
      { st with warnings := st.warnings ++ [mkVE key vd e],
                result := st.result ++ [(key, vd.opts.default?)] } := by
  unfold parseStep
  rw [h]
  simp [hw]

theorem parseStep_err_hard (env : EnvMap) (key : String) (vd : Validator) (st : PassState)
    (e : EnvErr) (h : vd.parse (assocLookup env key) key env = .error e)
    (hw : vd.opts.warnOnly = false) :
    parseStep env key vd st = { st with errors := st.errors ++ [mkVE key vd e] } := by
  unfold parseStep
  rw [h]
  simp [hw]

theorem processField_skip (env : EnvMap) (st : PassState) (key : String) (vd : Validator)
    (pred : ResultMap → Bool) (hrw : vd.opts.requiredWhen? = some pred)
    (hpred : pred st.result = false)
    (hraw : assocLookup env key = none ∨ assocLookup env key = some "") :
    processField env st key vd =
      { st with warnings := st.warnings ++ depWarnings env key vd,
                result := st.result ++ [(key, vd.opts.default?)] } := by
  unfold processField
  rw [hrw]
  have hc : (!(pred st.result) && decide (assocLookup env key = none ∨
      assocLookup env key = some "")) = true := by
    simp [hpred, hraw]
  simp only [hc, if_true]

theorem processField_toParse (env : EnvMap) (st : PassState) (key : String) (vd : Validator)
    (hrw : vd.opts.requiredWhen? = none) :
    processField env st key vd =
      parseStep env key vd { st with warnings := st.warnings ++ depWarnings env key vd } := by
  unfold processField
  rw [hrw]

theorem processField_requiredParse (env : EnvMap) (st : PassState) (key : String)
    (vd : Validator) (pred : ResultMap → Bool) (hrw : vd.opts.requiredWhen? = some pred)
    (hpred : pred st.result = true) :
    processField env st key vd =
      parseStep env key vd { st with warnings := st.warnings ++ depWarnings env key vd } := by
  unfold processField
  rw [hrw]
  simp [hpred]

theorem parseStep_shape (env : EnvMap) (key : String) (vd : Validator) (st1 : PassState) :
    ∃ rt et wt,
      parseStep env key vd st1 =
        { result := st1.result ++ rt, errors := st1.errors ++ et,
          warnings := st1.warnings ++ wt } ∧
      (∀ p ∈ rt, p.1 = key) ∧ (∀ e ∈ et, e.key = key) ∧ (∀ e ∈ wt, e.key = key) := by
  cases hp : vd.parse (assocLookup env key) key env with
  | ok v =>
    refine ⟨[(key, some v)], [], [], ?_, by simp, by simp, by simp⟩
    rw [parseStep_ok env key vd st1 v hp]
    simp
  | error e =>
    cases hw : vd.opts.warnOnly with
    | true =>
      refine ⟨[(key, vd.opts.default?)], [], [mkVE key vd e], ?_, by simp, by simp, ?_⟩
      · rw [parseStep_err_warn env key vd st1 e hp hw]
        simp
      · intro x hx
        simp only [List.mem_singleton] at hx
        subst hx
        rfl
    | false =>
      refine ⟨[], [mkVE key vd e], [], ?_, by simp, ?_, by simp⟩
      · rw [parseStep_err_hard env key vd st1 e hp hw]
        simp
      · intro x hx
        simp only [List.mem_singleton] at hx
        subst hx
        rfl

theorem processField_shape (env : EnvMap) (st : PassState) (key : String) (vd : Validator) :
    ∃ rt et wt,
      processField env st key vd =
        { result := st.result ++ rt, errors := st.errors ++ et,
          warnings := st.warnings ++ wt } ∧
      (∀ p ∈ rt, p.1 = key) ∧ (∀ e ∈ et, e.key = key) ∧ (∀ e ∈ wt, e.key = key) := by
  have hdep := depWarnings_key env key vd
  have hps := parseStep_shape env key vd
    { st with warnings := st.warnings ++ depWarnings env key vd }
  cases hrw : vd.opts.requiredWhen? with
  | none =>
    rw [processField_toParse env st key vd hrw]
    obtain ⟨rt, et, wt, heq, h1, h2, h3⟩ := hps
    refine ⟨rt, et, depWarnings env key vd ++ wt, ?_, h1, h2, ?_⟩
    · rw [heq]
      simp
    · intro e he
      rcases List.mem_append.mp he with h | h
      · exact hdep e h
      · exact h3 e h
  | some pred =>
    by_cases hc : (!(pred st.result) && decide (assocLookup env key = none ∨
        assocLookup env key = some "")) = true
    · have hpf : processField env st key vd =
          { st with warnings := st.warnings ++ depWarnings env key vd,
                    result := st.result ++ [(key, vd.opts.default?)] } := by
        unfold processField
        rw [hrw]
        simp only [hc, if_true]
      rw [hpf]
      exact ⟨[(key, vd.opts.default?)], [], depWarnings env key vd,
        by simp, by simp, by simp, hdep⟩
    · have hcf : (!(pred st.result) && decide (assocLookup env key = none ∨
          assocLookup env key = some "")) = false := by
        simpa using hc
      have hpf : processField env st key vd =
          parseStep env key vd { st with warnings := st.warnings ++ depWarnings env key vd } := by
        unfold processField
        rw [hrw]
        simp [hcf]
        intro h1 h2
        exact absurd (by simp [h1, h2]) hc
      rw [hpf]
      obtain ⟨rt, et, wt, heq, h1, h2, h3⟩ := hps
      refine ⟨rt, et, depWarnings env key vd ++ wt, ?_, h1, h2, ?_⟩
      · rw [heq]
        simp
      · intro e he
        rcases List.mem_append.mp he with h | h
        · exact hdep e h
        · exact h3 e h

theorem runPass_append (env : EnvMap) (st : PassState) (xs ys : List (String × Validator)) :
    runPass env st (xs ++ ys) = runPass env (runPass env st xs) ys := by
  induction xs generalizing st with
  | nil => rfl
  | cons p rest ih =>
    obtain ⟨key, vd⟩ := p
    simp only [List.cons_append, runPass]
    exact ih (processField env st key vd)

theorem runPass_shape (env : EnvMap) (spec : List (String × Validator)) (st : PassState) :
    ∃ rt et wt,
      runPass env st spec =
        { result := st.result ++ rt, errors := st.errors ++ et,
          warnings := st.warnings ++ wt } ∧
      (∀ p ∈ rt, p.1 ∈ spec.map Prod.fst) ∧ (∀ e ∈ et, e.key ∈ spec.map Prod.fst) ∧
      (∀ e ∈ wt, e.key ∈ spec.map Prod.fst) := by
  induction spec generalizing st with
  | nil => exact ⟨[], [], [], by simp [runPass], by simp, by simp, by simp⟩
  | cons p rest ih =>
    obtain ⟨key, vd⟩ := p
    obtain ⟨rt1, et1, wt1, heq1, hr1, he1, hw1⟩ := processField_shape env st key vd
    obtain ⟨rt2, et2, wt2, heq2, hr2, he2, hw2⟩ := ih (processField env st key vd)
    refine ⟨rt1 ++ rt2, et1 ++ et2, wt1 ++ wt2, ?_, ?_, ?_, ?_⟩
    · simp only [runPass]
      rw [heq2, heq1]
      simp [List.append_assoc]
    · intro q hq
      rcases List.mem_append.mp hq with h | h
      · simp [hr1 q h]
      · simp only [List.map_cons, List.mem_cons]
        exact Or.inr (hr2 q h)
    · intro e he
      rcases List.mem_append.mp he with h | h
      · simp [he1 e h]
      · simp only [List.map_cons, List.mem_cons]
        exact Or.inr (he2 e h)
    · intro e he
      rcases List.mem_append.mp he with h | h
      · simp [hw1 e h]
      · simp only [List.map_cons, List.mem_cons]
        exact Or.inr (hw2 e h)

theorem cleanEnv_fields (spec : List (String × Validator)) (env : EnvMap)
    (copts : CleanOptions) :
    (cleanEnv spec env copts).final.fields = (runPass env {} spec).result := rfl

theorem cleanEnv_errors (spec : List (String × Validator)) (env : EnvMap)
    (copts : CleanOptions) :
    (cleanEnv spec env copts).errors =
      (runPass env {} spec).errors ++
        (if copts.strict then
          (if copts.warnOnExtra || copts.strict then
            extraDiags (spec.map Prod.fst) (copts.allowedExtra ++ SYSTEM_ALLOWED)
              copts.strict env
          else [])
        else []) := rfl

theorem cleanEnv_warnings (spec : List (String × Validator)) (env : EnvMap)
    (copts : CleanOptions) :
    (cleanEnv spec env copts).warnings =
      (runPass env {} spec).warnings ++
        (if copts.strict then []
        else
          (if copts.warnOnExtra || copts.strict then
            extraDiags (spec.map Prod.fst) (copts.allowedExtra ++ SYSTEM_ALLOWED)
              copts.strict env
          else [])) := rfl

theorem extraDiags_spec_free (specKeys allowedSet : List String) (strict : Bool)
    (env : EnvMap) :
    ∀ d ∈ extraDiags specKeys allowedSet strict env, member d.key specKeys = false := by
  intro d hd
  unfold extraDiags at hd
  obtain ⟨a, _, hfa⟩ := List.mem_filterMap.mp hd
  by_cases hc : isExtraKey specKeys allowedSet a = true
  · rw [if_pos hc] at hfa
    injection hfa with hfa
    subst hfa
    unfold isExtraKey at hc
    simp only [Bool.and_eq_true, Bool.not_eq_true'] at hc
    exact hc.1.1
  · rw [if_neg hc] at hfa
    exact absurd hfa (by simp)

theorem runPass_middle (env : EnvMap) (pre post : List (String × Validator)) (key : String)
    (vd : Validator) :
    runPass env {} (pre ++ (key, vd) :: post) =
      runPass env (processField env (runPass env {} pre) key vd) post := by
  rw [runPass_append]
  rfl

theorem cleanEnv_middle (env : EnvMap) (copts : CleanOptions)
    (pre post : List (String × Validator)) (key : String) (vd : Validator)
    (_hpre : key ∉ pre.map Prod.fst) (hpost : key ∉ post.map Prod.fst) :
    (assocLookup (cleanEnv (pre ++ (key, vd) :: post) env copts).final.fields key =
      assocLookup (processField env (runPass env {} pre) key vd).result key) ∧
    (∀ d ∈ (processField env (runPass env {} pre) key vd).errors,
      d ∈ (cleanEnv (pre ++ (key, vd) :: post) env copts).errors) ∧
    (∀ d ∈ (processField env (runPass env {} pre) key vd).warnings,
      d ∈ (cleanEnv (pre ++ (key, vd) :: post) env copts).warnings) ∧
    (∀ d ∈ (cleanEnv (pre ++ (key, vd) :: post) env copts).errors ++
        (cleanEnv (pre ++ (key, vd) :: post) env copts).warnings,
      d.key = key →
        d ∈ (processField env (runPass env {} pre) key vd).errors ∨
        d ∈ (processField env (runPass env {} pre) key vd).warnings) := by
  have hmidkey : key ∈ (pre ++ (key, vd) :: post).map Prod.fst := by simp
  obtain ⟨rt, et, wt, heq, hr, he, hw⟩ :=
    runPass_shape env post (processField env (runPass env {} pre) key vd)
  have hall : runPass env {} (pre ++ (key, vd) :: post) =
      { result := (processField env (runPass env {} pre) key vd).result ++ rt,
        errors := (processField env (runPass env {} pre) key vd).errors ++ et,
        warnings := (processField env (runPass env {} pre) key vd).warnings ++ wt } := by
    rw [runPass_middle, heq]
  have hetk : ∀ d ∈ et, d.key ≠ key := by
    intro d hd hk
    exact hpost (hk ▸ he d hd)
  have hwtk : ∀ d ∈ wt, d.key ≠ key := by
    intro d hd hk
    exact hpost (hk ▸ hw d hd)
  have hextra : ∀ d ∈ extraDiags ((pre ++ (key, vd) :: post).map Prod.fst)
      (copts.allowedExtra ++ SYSTEM_ALLOWED) copts.strict env, d.key ≠ key := by
    intro d hd hk
    have h1 := extraDiags_spec_free _ _ _ _ d hd
    rw [hk] at h1
    have h2 := (member_iff key ((pre ++ (key, vd) :: post).map Prod.fst)).mpr hmidkey
    rw [h1] at h2
    exact absurd h2 (by simp)
  refine ⟨?_, ?_, ?_, ?_⟩
  · rw [cleanEnv_fields, hall]
    apply assocLookup_append_right
    intro hmem
    obtain ⟨p, hp, hpk⟩ := List.mem_map.mp hmem
    exact hpost (hpk ▸ hr p hp)
  · intro d hd
    rw [cleanEnv_errors, hall]
    exact List.mem_append_left _ (List.mem_append_left _ hd)
  · intro d hd
    rw [cleanEnv_warnings, hall]
    exact List.mem_append_left _ (List.mem_append_left _ hd)
  · intro d hd hk
    rw [cleanEnv_errors, cleanEnv_warnings, hall] at hd
    simp only [List.mem_append] at hd
    rcases hd with ((hd | hd) | hd) | ((hd | hd) | hd)
    · exact Or.inl hd
    · exact absurd hk (hetk d hd)
    · split at hd
      · split at hd
        · exact absurd hk (hextra d hd)
        · exact absurd hd (by simp)
      · exact absurd hd (by simp)
    · exact Or.inr hd
    · exact absurd hk (hwtk d hd)
    · split at hd
      · exact absurd hd (by simp)
      · split at hd
        · exact absurd hk (hextra d hd)
        · exact absurd hd (by simp)

theorem assocLookup_eq_none {α : Type} (l : List (String × α)) (k : String)
    (h : k ∉ l.map Prod.fst) : assocLookup l k = none := by
  induction l with
  | nil => rfl
  | cons p rest ih =>
    obtain ⟨k', v⟩ := p
    simp only [List.map_cons, List.mem_cons, not_or] at h
    have hne : ¬(k' = k) := fun hk => h.1 hk.symm
    simp only [assocLookup, if_neg hne]
    exact ih h.2

theorem runPass_nil_keys (env : EnvMap) (spec : List (String × Validator)) :
    ∀ p ∈ (runPass env {} spec).result, p.1 ∈ spec.map Prod.fst := by
  obtain ⟨rt, et, wt, heq, hr, _, _⟩ := runPass_shape env spec {}
  rw [heq]
  simpa using hr

theorem runPass_nil_error_keys (env : EnvMap) (spec : List (String × Validator)) :
    ∀ d ∈ (runPass env {} spec).errors, d.key ∈ spec.map Prod.fst := by
  obtain ⟨rt, et, wt, heq, _, he, _⟩ := runPass_shape env spec {}
  rw [heq]
  simpa using he

theorem runPass_nil_warning_keys (env : EnvMap) (spec : List (String × Validator)) :
    ∀ d ∈ (runPass env {} spec).warnings, d.key ∈ spec.map Prod.fst := by
  obtain ⟨rt, et, wt, heq, _, _, hw⟩ := runPass_shape env spec {}
  rw [heq]
  simpa using hw

theorem countP_eq_zero_of (l : List ValidationErr) (p : ValidationErr → Bool)
    (h : ∀ d ∈ l, p d = false) : l.countP p = 0 := by
  rw [List.countP_eq_zero]
  intro a ha
  simp [h a ha]

theorem extraScan_zero (specKeys allowedSet : List String) (strict : Bool)
    (keys : List String) (k : String) (hk : k ∉ keys) :
    ((keys.filterMap fun a =>
        if isExtraKey specKeys allowedSet a then
          some ({ key := a, message := "Unknown environment variable",
                  isWarning := !strict } : ValidationErr)
        else none).countP fun e => e.key == k) = 0 := by
  induction keys with
  | nil => rfl
  | cons a rest ih =>
    simp only [List.mem_cons, not_or] at hk
    have hak : (a == k) = false := by
      rw [beq_eq_false_iff_ne]
      exact fun h => hk.1 h.symm
    by_cases hc : isExtraKey specKeys allowedSet a = true
    · rw [List.filterMap_cons_some (by rw [if_pos hc]), List.countP_cons]
      simp only [hak]
      simp [ih hk.2]
    · rw [List.filterMap_cons_none (by rw [if_neg hc])]
      exact ih hk.2

theorem extraScan_one (specKeys allowedSet : List String) (strict : Bool)
    (keys : List String) (k : String) (hnd : keys.Nodup) (hk : k ∈ keys)
    (hcond : isExtraKey specKeys allowedSet k = true) :
    ((keys.filterMap fun a =>
        if isExtraKey specKeys allowedSet a then
          some ({ key := a, message := "Unknown environment variable",
                  isWarning := !strict } : ValidationErr)
        else none).countP fun e => e.key == k) = 1 := by
  induction keys with
  | nil => cases hk
  | cons a rest ih =>
    rw [List.nodup_cons] at hnd
    by_cases hak : a = k
    · subst hak
      rw [List.filterMap_cons_some (by rw [if_pos hcond]), List.countP_cons]
      have hz := extraScan_zero specKeys allowedSet strict rest a hnd.1
      simp [hz]
    · have hkrest : k ∈ rest := by
        rcases List.mem_cons.mp hk with h | h
        · exact absurd h.symm hak
        · exact h
      have hbk : (a == k) = false := by
        rw [beq_eq_false_iff_ne]
        exact hak
      by_cases hc : isExtraKey specKeys allowedSet a = true
      · rw [List.filterMap_cons_some (by rw [if_pos hc]), List.countP_cons]
        simp only [hbk]
        simp [ih hnd.2 hkrest]
      · rw [List.filterMap_cons_none (by rw [if_neg hc])]
        exact ih hnd.2 hkrest

theorem mem_extraDiags (specKeys allowedSet : List String) (strict : Bool) (env : EnvMap)
    (k : String) (hk : k ∈ env.map Prod.fst)
    (hcond : isExtraKey specKeys allowedSet k = true) :
    ({ key := k, message := "Unknown environment variable",
       isWarning := !strict } : ValidationErr) ∈ extraDiags specKeys allowedSet strict env := by
  unfold extraDiags
  exact List.mem_filterMap.mpr ⟨k, hk, by rw [if_pos hcond]⟩

theorem createValidator_parse_empty (options : Opts)
    (parser : String → String → Except EnvErr Value) (key : String) (env : EnvMap)
    (raw : Option String) (hraw : raw = none ∨ raw = some "") :
    (createValidator options parser).parse raw key env = resolveDefaults options key env := by
  rcases hraw with h | h <;> subst h <;> simp [createValidator]

theorem resolveDefaults_missing (options : Opts) (key : String) (env : EnvMap)
    (h1 : getNodeEnv env = "test" → options.testDefault? = none)
    (h2 : getNodeEnv env ≠ "production" → options.devDefault? = none)
    (h3 : options.default? = none) :
    resolveDefaults options key env = .error (envMissingError key) := by
  unfold resolveDefaults
  by_cases htest : getNodeEnv env = "test"
  · have hnp : getNodeEnv env ≠ "production" := by rw [htest]; simp
    simp [htest, h1 htest, h2 hnp, h3]
  · by_cases hprod : getNodeEnv env = "production"
    · simp [htest, hprod, h3]
    · simp [htest, hprod, h2 hprod, h3]

/-- C3: when the raw value is absent or empty and all three tiered defaults
are set, `createValidator.parse` returns `testDefault` in tier "test",
`devDefault` in any other non-production tier (an absent `NODE_ENV`
defaulting to "development"), and `default` in tier "production".  The
quantification over `parser` shows the returned default bypasses the
type-specific parser entirely, i.e. it is not itself validated. -/
theorem c3_tier_default_precedence (options : Opts)
    (parser : String → String → Except EnvErr Value) (key : String) (env : EnvMap)
    (raw : Option String) (t d df : Value)
    (ht : options.testDefault? = some t) (hd : options.devDefault? = some d)
    (hdf : options.default? = some df) (hraw : raw = none ∨ raw = some "") :
    (getNodeEnv env = "test" →
      (createValidator options parser).parse raw key env = .ok t) ∧
    (getNodeEnv env ≠ "production" → getNodeEnv env ≠ "test" →
      (createValidator options parser).parse raw key env = .ok d) ∧
    (getNodeEnv env = "production" →
      (createValidator options parser).parse raw key env = .ok df) := by
  rw [createValidator_parse_empty options parser key env raw hraw]
  refine ⟨?_, ?_, ?_⟩
  · intro h
    simp [resolveDefaults, h, ht]
  · intro h1 h2
    simp [resolveDefaults, h1, h2, hd]
  · intro h
    simp [resolveDefaults, h, hdf]

/-- Witness for C3 at a concrete input: tier "test" returns the test
default unvalidated (the supplied parser always fails). -/
theorem c3_witness :
    (createValidator
        { testDefault? := some (Value.vStr "T"), devDefault? := some (Value.vStr "D"),
          default? := some (Value.vStr "F") }
        (fun v k => Except.error (validationErr k "always fails" (some v)))).parse
      none "KEY" [("NODE_ENV", "test")] = .ok (Value.vStr "T") :=
  (c3_tier_default_precedence _ _ "KEY" [("NODE_ENV", "test")] none _ _ _
    rfl rfl rfl (Or.inl rfl)).1 rfl

/-- C7: when the raw value is absent or empty and no tiered default applies,
`createValidator.parse` fails with `EnvMissingError`, whose message is
"Missing required environment variable: " followed by the field name. -/
theorem c7_missing_required_error (options : Opts)
    (parser : String → String → Except EnvErr Value) (key : String) (env : EnvMap)
    (raw : Option String) (hraw : raw = none ∨ raw = some "")
    (h1 : getNodeEnv env = "test" → options.testDefault? = none)
    (h2 : getNodeEnv env ≠ "production" → options.devDefault? = none)
    (h3 : options.default? = none) :
    (createValidator options parser).parse raw key env = .error (envMissingError key) ∧
    (envMissingError key).message = "Missing required environment variable: " ++ key := by
  rw [createValidator_parse_empty options parser key env raw hraw]
  exact ⟨resolveDefaults_missing options key env h1 h2 h3, rfl⟩

/-- Witness for C7 at a concrete input: a validator with no defaults fails
on an absent raw value with the missing-required error. -/
theorem c7_witness :
    (createValidator {} (fun v _ => Except.ok (Value.vStr v))).parse none "API_KEY" [] =
      .error (envMissingError "API_KEY") :=
  (c7_missing_required_error {} _ "API_KEY" [] none (Or.inl rfl)
    (fun _ => rfl) (fun _ => rfl) rfl).1

/-- C8: the duration validator parses "5s" to 5000 with the default output
unit and to 5 with output unit "s"; the bytes validator parses "2MB" to
2097152 with the default output unit and to 2 with output unit "MB". -/
theorem c8_unit_round_trip :
    (durationV {}).parse (some "5s") "KEY" [] = .ok (.vNum 5000) ∧
    (durationV { unit? := some "s" }).parse (some "5s") "KEY" [] = .ok (.vNum 5) ∧
    (bytesV {}).parse (some "2MB") "KEY" [] = .ok (.vNum 2097152) ∧
    (bytesV { unit? := some "MB" }).parse (some "2MB") "KEY" [] = .ok (.vNum 2) := by
  refine ⟨?_, ?_, ?_, ?_⟩
  · rw [show (durationV {}).parse (some "5s") "KEY" [] =
        .ok (.vNum ((5 : ℚ) * 1000 / 1)) from rfl]
    simp only [Except.ok.injEq, Value.vNum.injEq]
    norm_num
  · rw [show (durationV { unit? := some "s" }).parse (some "5s") "KEY" [] =
        .ok (.vNum ((5 : ℚ) * 1000 / 1000)) from rfl]
    simp only [Except.ok.injEq, Value.vNum.injEq]
    norm_num
  · rw [show (bytesV {}).parse (some "2MB") "KEY" [] =
        .ok (.vNum ((2 : ℚ) * (1024 * 1024) / 1)) from rfl]
    simp only [Except.ok.injEq, Value.vNum.injEq]
    norm_num
  · rw [show (bytesV { unit? := some "MB" }).parse (some "2MB") "KEY" [] =
        .ok (.vNum ((2 : ℚ) * (1024 * 1024) / (1024 * 1024))) from rfl]
    simp only [Except.ok.injEq, Value.vNum.injEq]
    norm_num

/-- C1 (amended): the `choices` allow-list is enforced after a successful
type-specific parse by the string, number, email, url, host, port, regex,
duration and bytes validators (failing with the "must be one of: ..."
validation error when the parsed value is not a member), and by the uuid
validator with the membership test applied to the raw pre-lowercase input;
the boolean, json, array and enum validators perform no choices check at
all — their parse behaviour is independent of the `choices` option. -/
theorem c1_choices_catalogue :
    (∀ (o : StringOpts) (cs : List Value) (value key : String) (r : Value),
      strParserFn (o.withChoices none) value key = .ok r → valueMem r cs = false →
      strParserFn (o.withChoices (some cs)) value key = .error (mustBeOneOf key cs value)) ∧
    (∀ (o : NumberOpts) (cs : List Value) (value key : String) (r : Value),
      numParserFn (o.withChoices none) value key = .ok r → valueMem r cs = false →
      numParserFn (o.withChoices (some cs)) value key = .error (mustBeOneOf key cs value)) ∧
    (∀ (o : Opts) (cs : List Value) (value key : String) (r : Value),
      emailParserFn (o.withChoices none) value key = .ok r → valueMem r cs = false →
      emailParserFn (o.withChoices (some cs)) value key = .error (mustBeOneOf key cs value)) ∧
    (∀ (o : Opts) (cs : List Value) (value key : String) (r : Value),
      urlParserFn (o.withChoices none) value key = .ok r → valueMem r cs = false →
      urlParserFn (o.withChoices (some cs)) value key = .error (mustBeOneOf key cs value)) ∧
    (∀ (o : Opts) (cs : List Value) (value key : String) (r : Value),
      hostParserFn (o.withChoices none) value key = .ok r → valueMem r cs = false →
      hostParserFn (o.withChoices (some cs)) value key = .error (mustBeOneOf key cs value)) ∧
    (∀ (o : NumberOpts) (cs : List Value) (value key : String) (r : Value),
      portParserFn (o.withChoices none) value key = .ok r → valueMem r cs = false →
      portParserFn (o.withChoices (some cs)) value key = .error (mustBeOneOf key cs value)) ∧
    (∀ (o : RegexOpts) (cs : List Value) (value key : String) (r : Value),
      regexParserFn (o.withChoices none) value key = .ok r → valueMem r cs = false →
      regexParserFn (o.withChoices (some cs)) value key = .error (mustBeOneOf key cs value)) ∧
    (∀ (o : DurationOpts) (cs : List Value) (value key : String) (r : Value),
      durationParserFn (o.withChoices none) value key = .ok r → valueMem r cs = false →
      durationParserFn (o.withChoices (some cs)) value key = .error (mustBeOneOf key cs value)) ∧
    (∀ (o : BytesOpts) (cs : List Value) (value key : String) (r : Value),
      bytesParserFn (o.withChoices none) value key = .ok r → valueMem r cs = false →
      bytesParserFn (o.withChoices (some cs)) value key = .error (mustBeOneOf key cs value)) ∧
    (∀ (o : Opts) (cs : List Value) (value key : String) (r : Value),
      uuidParserFn (o.withChoices none) value key = .ok r →
      valueMem (.vStr value) cs = false →
      uuidParserFn (o.withChoices (some cs)) value key = .error (mustBeOneOf key cs value)) ∧
    (∀ (o : Opts) (c : Option (List Value)) (raw : Option String) (key : String) (env : EnvMap),
      (boolV (o.withChoices c)).parse raw key env = (boolV o).parse raw key env) ∧
    (∀ (jp : String → Option Value) (o : JsonOpts) (c : Option (List Value))
        (raw : Option String) (key : String) (env : EnvMap),
      (jsonV jp (o.withChoices c)).parse raw key env = (jsonV jp o).parse raw key env) ∧
    (∀ (o : ArrayOpts) (c : Option (List Value)) (raw : Option String) (key : String)
        (env : EnvMap),
      (arrayV (o.withChoices c)).parse raw key env = (arrayV o).parse raw key env) ∧
    (∀ (o : EnumOpts) (c : Option (List Value)) (raw : Option String) (key : String)
        (env : EnvMap),
      (enumV (o.withChoices c)).parse raw key env = (enumV o).parse raw key env) := by
  refine ⟨?_, ?_, ?_, ?_, ?_, ?_, ?_, ?_, ?_, ?_, ?_, ?_, ?_, ?_⟩
  · intro o cs value key r h hmem
    rw [strParserFn_char o cs value key r h, hmem]
    rfl
  · intro o cs value key r h hmem
    rw [numParserFn_char o cs value key r h, hmem]
    rfl
  · intro o cs value key r h hmem
    rw [emailParserFn_char o cs value key r h, hmem]
    rfl
  · intro o cs value key r h hmem
    rw [urlParserFn_char o cs value key r h, hmem]
    rfl
  · intro o cs value key r h hmem
    rw [hostParserFn_char o cs value key r h, hmem]
    rfl
  · intro o cs value key r h hmem
    rw [portParserFn_char o cs value key r h, hmem]
    rfl
  · intro o cs value key r h hmem
    rw [regexParserFn_char o cs value key r h, hmem]
    rfl
  · intro o cs value key r h hmem
    rw [durationParserFn_char o cs value key r h, hmem]
    rfl
  · intro o cs value key r h hmem
    rw [bytesParserFn_char o cs value key r h, hmem]
    rfl
  · intro o cs value key r h hmem
    rw [uuidParserFn_char o cs value key r h, hmem]
    rfl
  · intro o c raw key env
    rfl
  · intro jp o c raw key env
    rfl
  · intro o c raw key env
    rfl
  · intro o c raw key env
    rfl

/-- Counterexample to C1 as stated: the boolean validator constructed with
`choices := [true]` parses the non-empty raw string "false" successfully to
`false`, which is not a member of `choices`, instead of failing with a
"must be one of: ..." error. -/
theorem c1_counterexample :
    (boolV { choices? := some [Value.vBool true] }).parse (some "false") "KEY" [] =
      .ok (.vBool false) ∧
    valueMem (.vBool false) [Value.vBool true] = false :=
  ⟨rfl, rfl⟩

/-- Witness for C1 (amended) at a concrete input: the string validator with
`choices := ["a"]` rejects "b". -/
theorem c1_witness :
    strParserFn (StringOpts.withChoices {} none) "b" "KEY" = .ok (.vStr "b") ∧
    valueMem (.vStr "b") [Value.vStr "a"] = false ∧
    strParserFn (StringOpts.withChoices {} (some [Value.vStr "a"])) "b" "KEY" =
      .error (mustBeOneOf "KEY" [Value.vStr "a"] "b") :=
  ⟨rfl, rfl, c1_choices_catalogue.1 {} [Value.vStr "a"] "b" "KEY" (.vStr "b") rfl rfl⟩

/-- C2 (amended): whenever the type-specific parse succeeds, the string,
duration and bytes validators test `choices` membership against the final
transformed/converted value `r`; the uuid validator instead tests the raw
pre-lowercase input (returning the lowercased result only when the raw
string itself is a member), so a mixed-case uuid whose lowercased form is
in `choices` is rejected unless the raw form is also listed. -/
theorem c2_choices_use_transformed_value :
    (∀ (o : StringOpts) (cs : List Value) (value key : String) (r : Value),
      strParserFn (o.withChoices none) value key = .ok r →
      strParserFn (o.withChoices (some cs)) value key =
        if valueMem r cs then .ok r else .error (mustBeOneOf key cs value)) ∧
    (∀ (o : DurationOpts) (cs : List Value) (value key : String) (r : Value),
      durationParserFn (o.withChoices none) value key = .ok r →
      durationParserFn (o.withChoices (some cs)) value key =
        if valueMem r cs then .ok r else .error (mustBeOneOf key cs value)) ∧
    (∀ (o : BytesOpts) (cs : List Value) (value key : String) (r : Value),
      bytesParserFn (o.withChoices none) value key = .ok r →
      bytesParserFn (o.withChoices (some cs)) value key =
        if valueMem r cs then .ok r else .error (mustBeOneOf key cs value)) ∧
    (∀ (o : Opts) (cs : List Value) (value key : String) (r : Value),
      uuidParserFn (o.withChoices none) value key = .ok r →
      uuidParserFn (o.withChoices (some cs)) value key =
        if valueMem (.vStr value) cs then .ok (.vStr (sLower value))
        else .error (mustBeOneOf key cs value)) :=
  ⟨strParserFn_char, durationParserFn_char, bytesParserFn_char, uuidParserFn_char⟩

/-- Counterexample to C2 as stated: the uuid validator with `choices`
containing exactly the lowercase form rejects the mixed-case input, because
the source checks `choices.includes(value)` on the raw value before the
`toLowerCase()` normalization. -/
theorem c2_counterexample :
    (uuidV { choices? := some [Value.vStr "550e8400-e29b-41d4-a716-446655440000"] }).parse
        (some "550E8400-E29B-41D4-A716-446655440000") "KEY" [] =
      .error (mustBeOneOf "KEY" [Value.vStr "550e8400-e29b-41d4-a716-446655440000"]
        "550E8400-E29B-41D4-A716-446655440000") ∧
    sLower "550E8400-E29B-41D4-A716-446655440000" =
      "550e8400-e29b-41d4-a716-446655440000" ∧
    valueMem (.vStr "550e8400-e29b-41d4-a716-446655440000")
      [Value.vStr "550e8400-e29b-41d4-a716-446655440000"] = true :=
  ⟨rfl, rfl, rfl⟩

/-- Witness for C2 (amended) at a concrete input: the uuid validator with
the raw mixed-case string itself in `choices` accepts it and returns the
lowercased form. -/
theorem c2_witness :
    uuidParserFn (Opts.withChoices {} none) "550E8400-E29B-41D4-A716-446655440000" "KEY" =
      .ok (.vStr "550e8400-e29b-41d4-a716-446655440000") ∧
    uuidParserFn (Opts.withChoices {} (some [Value.vStr "550E8400-E29B-41D4-A716-446655440000"]))
        "550E8400-E29B-41D4-A716-446655440000" "KEY" =
      if valueMem (.vStr "550E8400-E29B-41D4-A716-446655440000")
          [Value.vStr "550E8400-E29B-41D4-A716-446655440000"] then
        .ok (.vStr (sLower "550E8400-E29B-41D4-A716-446655440000"))
      else .error (mustBeOneOf "KEY" [Value.vStr "550E8400-E29B-41D4-A716-446655440000"]
        "550E8400-E29B-41D4-A716-446655440000") :=
  ⟨rfl, c2_choices_use_transformed_value.2.2.2 {}
    [Value.vStr "550E8400-E29B-41D4-A716-446655440000"]
    "550E8400-E29B-41D4-A716-446655440000" "KEY"
    (.vStr "550e8400-e29b-41d4-a716-446655440000") rfl⟩

/-- C6 counterexample: the claim's read clause fails at the property name
"toString", which is neither a declared spec field nor a flag, yet the
guarded read returns the inherited `Object.prototype.toString` member (not
`undefined`) and fires no warning, because the source's `prop in target`
test sees inherited members. -/
theorem c6_counterexample :
    "toString" ∉ (["PORT"] : List String) ∧ "toString" ∉ FLAG_KEYS ∧
    (cleanEnvGuarded [("PORT", strV { base := { default? := some (Value.vStr "3000") } })]
        [] {}).get "toString" = (.inherited "toString", false) ∧
    ReadResult.inherited "toString" ≠ ReadResult.undefined :=
  ⟨by simp, by simp [FLAG_KEYS], rfl, by simp⟩

/-- C6 (amended): on the guarded result of `cleanEnv`, every property
assignment, deletion or redefinition throws (never a silent no-op).
Reading a property that is neither a declared spec field, nor one of the
three derived flags, nor the name of an inherited `Object.prototype`
member returns `undefined` together with exactly one undeclared-access
warning; for an `Object.prototype` member name outside the spec and flags,
the read instead returns the inherited member and fires no warning. -/
theorem c6_guard_immutability (spec : List (String × Validator)) (env : EnvMap)
    (copts : CleanOptions) :
    (∀ prop, (cleanEnvGuarded spec env copts).set prop =
      .error ("Cannot modify environment variable: " ++ prop)) ∧
    (∀ prop, (cleanEnvGuarded spec env copts).deleteProp prop =
      .error ("Cannot delete environment variable: " ++ prop)) ∧
    (∀ prop, (cleanEnvGuarded spec env copts).defineProp prop =
      .error ("Cannot define environment variable: " ++ prop)) ∧
    (∀ prop, prop ∉ spec.map Prod.fst → prop ∉ FLAG_KEYS →
      prop ∉ OBJECT_PROTOTYPE_KEYS →
      (cleanEnvGuarded spec env copts).get prop = (.undefined, true)) ∧
    (∀ prop, prop ∉ spec.map Prod.fst → prop ∉ FLAG_KEYS →
      prop ∈ OBJECT_PROTOTYPE_KEYS →
      (cleanEnvGuarded spec env copts).get prop = (.inherited prop, false)) := by
  refine ⟨fun prop => rfl, fun prop => rfl, fun prop => rfl, ?_, ?_⟩
  all_goals intro prop hspec hflag hproto
  all_goals
    have hfields : prop ∉ (cleanEnv spec env copts).final.fields.map Prod.fst := by
      intro hmem
      obtain ⟨p, hp, hpk⟩ := List.mem_map.mp hmem
      rw [cleanEnv_fields] at hp
      exact hspec (hpk ▸ runPass_nil_keys env spec p hp)
  all_goals
    have h1 : prop ≠ "isProduction" := fun h => hflag (by simp [FLAG_KEYS, h])
    have h2 : prop ≠ "isDevelopment" := fun h => hflag (by simp [FLAG_KEYS, h])
    have h3 : prop ≠ "isTest" := fun h => hflag (by simp [FLAG_KEYS, h])
    have hwarnKeys : member prop (spec.map Prod.fst ++ FLAG_KEYS) = false := by
      apply member_eq_false
      rw [List.mem_append]
      rintro (h | h)
      · exact hspec h
      · exact hflag h
    have hown : (cleanEnv spec env copts).final.hasOwn prop = false := by
      unfold FinalResult.hasOwn
      rw [member_eq_false _ _ hflag, member_eq_false _ _ hfields]
      rfl
  · have hread : (cleanEnv spec env copts).final.read prop = .undefined := by
      unfold FinalResult.read
      rw [if_neg h1, if_neg h2, if_neg h3, assocLookup_eq_none _ _ hfields]
      simp [member_eq_false _ _ hproto]
    have hint : (cleanEnv spec env copts).final.inTarget prop = false := by
      unfold FinalResult.inTarget
      rw [hown, member_eq_false _ _ hproto]
      rfl
    show ((cleanEnv spec env copts).final.read prop,
      !(member prop (spec.map Prod.fst ++ FLAG_KEYS)) &&
        !((cleanEnv spec env copts).final.inTarget prop)) = (.undefined, true)
    rw [hread, hwarnKeys, hint]
    rfl
  · have hread : (cleanEnv spec env copts).final.read prop = .inherited prop := by
      unfold FinalResult.read
      rw [if_neg h1, if_neg h2, if_neg h3, assocLookup_eq_none _ _ hfields]
      simp [(member_iff _ _).mpr hproto]
    have hint : (cleanEnv spec env copts).final.inTarget prop = true := by
      unfold FinalResult.inTarget
      rw [hown, (member_iff _ _).mpr hproto]
      rfl
    show ((cleanEnv spec env copts).final.read prop,
      !(member prop (spec.map Prod.fst ++ FLAG_KEYS)) &&
        !((cleanEnv spec env copts).final.inTarget prop)) = (.inherited prop, false)
    rw [hread, hwarnKeys, hint]
    rfl

/-- Witness for C6 at a concrete input: the guarded result of a one-field
spec rejects writes, warns with `undefined` on the undeclared read "FOO",
and silently yields the inherited member on the read "valueOf". -/
theorem c6_witness :
    (cleanEnvGuarded [("PORT", strV { base := { default? := some (Value.vStr "3000") } })]
        [] {}).set "FOO" = .error "Cannot modify environment variable: FOO" ∧
    (cleanEnvGuarded [("PORT", strV { base := { default? := some (Value.vStr "3000") } })]
        [] {}).get "FOO" = (.undefined, true) ∧
    (cleanEnvGuarded [("PORT", strV { base := { default? := some (Value.vStr "3000") } })]
        [] {}).get "valueOf" = (.inherited "valueOf", false) :=
  ⟨(c6_guard_immutability [("PORT", strV { base := { default? := some (Value.vStr "3000") } })]
      [] {}).1 "FOO",
   (c6_guard_immutability [("PORT", strV { base := { default? := some (Value.vStr "3000") } })]
      [] {}).2.2.2.1 "FOO" (by simp) (by simp [FLAG_KEYS])
      (by simp [OBJECT_PROTOTYPE_KEYS]),
   (c6_guard_immutability [("PORT", strV { base := { default? := some (Value.vStr "3000") } })]
      [] {}).2.2.2.2 "valueOf" (by simp) (by simp [FLAG_KEYS])
      (by simp [OBJECT_PROTOTYPE_KEYS])⟩

theorem extraDiags_cond (specKeys allowedSet : List String) (strict : Bool) (env : EnvMap) :
    ∀ d ∈ extraDiags specKeys allowedSet strict env,
      isExtraKey specKeys allowedSet d.key = true := by
  intro d hd
  unfold extraDiags at hd
  obtain ⟨a, _, hfa⟩ := List.mem_filterMap.mp hd
  by_cases hc : isExtraKey specKeys allowedSet a = true
  · rw [if_pos hc] at hfa
    injection hfa with hfa
    subst hfa
    exact hc
  · rw [if_neg hc] at hfa
    exact absurd hfa (by simp)

/-- C9: with extra-key detection enabled and a duplicate-free raw source,
every raw key that is not a declared spec field, not allow-listed (built-in
list or caller-supplied `allowedExtra`), and not `npm_`-prefixed yields
exactly one diagnostic — a hard error under `strict`, otherwise a warning;
a key outside the spec that is allow-listed or `npm_`-prefixed yields no
diagnostic at all. -/
theorem c9_extra_key_diagnostics (spec : List (String × Validator)) (env : EnvMap)
    (copts : CleanOptions) :
    (∀ k, (copts.warnOnExtra = true ∨ copts.strict = true) →
      (env.map Prod.fst).Nodup → k ∈ env.map Prod.fst →
      isExtraKey (spec.map Prod.fst) (copts.allowedExtra ++ SYSTEM_ALLOWED) k = true →
      (({ key := k, message := "Unknown environment variable",
          isWarning := !copts.strict } : ValidationErr) ∈
        (if copts.strict then (cleanEnv spec env copts).errors
         else (cleanEnv spec env copts).warnings)) ∧
      ((cleanEnv spec env copts).errors ++ (cleanEnv spec env copts).warnings).countP
        (fun d => d.key == k) = 1) ∧
    (∀ k, k ∉ spec.map Prod.fst →
      isExtraKey (spec.map Prod.fst) (copts.allowedExtra ++ SYSTEM_ALLOWED) k = false →
      ((cleanEnv spec env copts).errors ++ (cleanEnv spec env copts).warnings).countP
        (fun d => d.key == k) = 0) := by
  have passCount : ∀ k, k ∉ spec.map Prod.fst →
      (runPass env {} spec).errors.countP (fun d => d.key == k) = 0 ∧
      (runPass env {} spec).warnings.countP (fun d => d.key == k) = 0 := by
    intro k hk
    constructor
    · apply countP_eq_zero_of
      intro d hd
      rw [beq_eq_false_iff_ne]
      intro hdk
      exact hk (hdk ▸ runPass_nil_error_keys env spec d hd)
    · apply countP_eq_zero_of
      intro d hd
      rw [beq_eq_false_iff_ne]
      intro hdk
      exact hk (hdk ▸ runPass_nil_warning_keys env spec d hd)
  have hED : extraDiags (spec.map Prod.fst) (copts.allowedExtra ++ SYSTEM_ALLOWED)
      copts.strict env =
      ((env.map Prod.fst).filterMap fun a =>
        if isExtraKey (spec.map Prod.fst) (copts.allowedExtra ++ SYSTEM_ALLOWED) a then
          some { key := a, message := "Unknown environment variable",
                 isWarning := !copts.strict }
        else none) := rfl
  refine ⟨?_, ?_⟩
  · intro k hen hnd hk hcond
    have hkns : k ∉ spec.map Prod.fst := by
      intro hmem
      have hm := (member_iff k (spec.map Prod.fst)).mpr hmem
      unfold isExtraKey at hcond
      rw [hm] at hcond
      simp at hcond
    have henb : (copts.warnOnExtra || copts.strict) = true := by
      rcases hen with h | h <;> simp [h]
    obtain ⟨hpz, hwz⟩ := passCount k hkns
    have hmem1 := mem_extraDiags (spec.map Prod.fst)
      (copts.allowedExtra ++ SYSTEM_ALLOWED) copts.strict env k hk hcond
    have hcnt : (extraDiags (spec.map Prod.fst) (copts.allowedExtra ++ SYSTEM_ALLOWED)
        copts.strict env).countP (fun d => d.key == k) = 1 := by
      rw [hED]
      exact extraScan_one _ _ _ _ k hnd hk hcond
    cases hs : copts.strict
    · have hwarneq : (cleanEnv spec env copts).warnings =
          (runPass env {} spec).warnings ++
            extraDiags (spec.map Prod.fst) (copts.allowedExtra ++ SYSTEM_ALLOWED)
              copts.strict env := by
        rw [cleanEnv_warnings, henb, hs]
        simp
      have herreq : (cleanEnv spec env copts).errors = (runPass env {} spec).errors := by
        rw [cleanEnv_errors, hs]
        simp
      constructor
      · rw [if_neg (by simp), hwarneq, hs]
        rw [hs] at hmem1
        exact List.mem_append_right _ hmem1
      · rw [herreq, hwarneq, List.countP_append, List.countP_append, hpz, hwz, hcnt]
    · have hwarneq : (cleanEnv spec env copts).warnings =
          (runPass env {} spec).warnings := by
        rw [cleanEnv_warnings, hs]
        simp
      have herreq : (cleanEnv spec env copts).errors =
          (runPass env {} spec).errors ++
            extraDiags (spec.map Prod.fst) (copts.allowedExtra ++ SYSTEM_ALLOWED)
              copts.strict env := by
        rw [cleanEnv_errors, henb, hs]
        simp
      constructor
      · rw [if_pos (show (true : Bool) = true from rfl), herreq, hs]
        rw [hs] at hmem1
        exact List.mem_append_right _ hmem1
      · rw [herreq, hwarneq, List.countP_append, List.countP_append, hpz, hwz, hcnt]
  · intro k hkns hcond
    obtain ⟨hpz, hwz⟩ := passCount k hkns
    have hCz : ∀ b : Bool, (extraDiags (spec.map Prod.fst)
        (copts.allowedExtra ++ SYSTEM_ALLOWED) b env).countP (fun d => d.key == k) = 0 := by
      intro b
      apply countP_eq_zero_of
      intro d hd
      rw [beq_eq_false_iff_ne]
      intro hdk
      have hcd := extraDiags_cond _ _ _ _ d hd
      rw [hdk, hcond] at hcd
      exact absurd hcd (by simp)
    rw [List.countP_append, cleanEnv_errors, cleanEnv_warnings]
    cases hs : copts.strict <;> cases hw : copts.warnOnExtra <;>
      simp [hs, hw, List.countP_append, hpz, hwz, hCz]

/-- Witness for C9 at a concrete input: under `strict`, the undeclared key
"EXTRA" yields exactly one diagnostic, recorded as a hard error. -/
theorem c9_witness :
    (({ key := "EXTRA", message := "Unknown environment variable",
        isWarning := !true } : ValidationErr) ∈
      (if (true : Bool) then (cleanEnv [] [("EXTRA", "v")] { strict := true }).errors
       else (cleanEnv [] [("EXTRA", "v")] { strict := true }).warnings)) ∧
    ((cleanEnv [] [("EXTRA", "v")] { strict := true }).errors ++
      (cleanEnv [] [("EXTRA", "v")] { strict := true }).warnings).countP
        (fun d => d.key == "EXTRA") = 1 :=
  (c9_extra_key_diagnostics [] [("EXTRA", "v")] { strict := true }).1 "EXTRA"
    (Or.inr rfl) (by simp) (by simp) rfl

/-- C5: when a field's `parse` raises an `EnvError` during the aggregate
pass (no conditional requirement in play), a `warnOnly` field records the
diagnostic as a warning — with the offending value masked when `secret` is
set — and is assigned its static `default`, while a non-`warnOnly` field
records a hard error and is left entirely unset in the result mapping. -/
theorem c5_warn_only_policy (env : EnvMap) (copts : CleanOptions)
    (pre post : List (String × Validator)) (key : String) (vd : Validator) (e : EnvErr)
    (hpre : key ∉ pre.map Prod.fst) (hpost : key ∉ post.map Prod.fst)
    (hrw : vd.opts.requiredWhen? = none)
    (hparse : vd.parse (assocLookup env key) key env = .error e) :
    ((vd.opts.warnOnly = true →
      mkVE key vd e ∈ (cleanEnv (pre ++ (key, vd) :: post) env copts).warnings ∧
      (mkVE key vd e).isWarning = true ∧
      (mkVE key vd e).value? =
        (if vd.opts.secret then some (maskSecret e.value?) else e.value?) ∧
      assocLookup (cleanEnv (pre ++ (key, vd) :: post) env copts).final.fields key =
        some vd.opts.default?) ∧
    (vd.opts.warnOnly = false →
      mkVE key vd e ∈ (cleanEnv (pre ++ (key, vd) :: post) env copts).errors ∧
      (mkVE key vd e).isWarning = false ∧
      assocLookup (cleanEnv (pre ++ (key, vd) :: post) env copts).final.fields key =
        none)) := by
  obtain ⟨hlook, herr, hwarn, _⟩ := cleanEnv_middle env copts pre post key vd hpre hpost
  have hstep := processField_toParse env (runPass env {} pre) key vd hrw
  have hkeyfree : key ∉ (runPass env {} pre).result.map Prod.fst := by
    intro hmem
    obtain ⟨p, hp, hpk⟩ := List.mem_map.mp hmem
    exact hpre (hpk ▸ runPass_nil_keys env pre p hp)
  constructor
  · intro hw
    have hps := parseStep_err_warn env key vd
      { runPass env {} pre with
        warnings := (runPass env {} pre).warnings ++ depWarnings env key vd } e hparse hw
    rw [hps] at hstep
    refine ⟨?_, ?_, rfl, ?_⟩
    · apply hwarn
      rw [hstep]
      exact List.mem_append_right _ (List.mem_singleton.mpr rfl)
    · unfold mkVE
      rw [hw]
    · rw [hlook, hstep]
      rw [assocLookup_append_left _ _ _ hkeyfree]
      simp [assocLookup]
  · intro hw
    have hps := parseStep_err_hard env key vd
      { runPass env {} pre with
        warnings := (runPass env {} pre).warnings ++ depWarnings env key vd } e hparse hw
    rw [hps] at hstep
    refine ⟨?_, ?_, ?_⟩
    · apply herr
      rw [hstep]
      exact List.mem_append_right _ (List.mem_singleton.mpr rfl)
    · unfold mkVE
      rw [hw]
    · rw [hlook, hstep]
      exact assocLookup_eq_none _ _ hkeyfree

/-- Witness for C5 at a concrete input: a `warnOnly` number field with an
unparsable raw value is downgraded to a warning and receives its static
default. -/
theorem c5_witness :
    mkVE "OPT" (numV { base := { default? := some (Value.vNum 1), warnOnly := true } })
        (validationErr "OPT" "must be a valid number" (some "abc")) ∈
      (cleanEnv [("OPT", numV { base := { default? := some (Value.vNum 1), warnOnly := true } })]
        [("OPT", "abc")] {}).warnings ∧
    assocLookup (cleanEnv
        [("OPT", numV { base := { default? := some (Value.vNum 1), warnOnly := true } })]
        [("OPT", "abc")] {}).final.fields "OPT" = some (some (Value.vNum 1)) :=
  ⟨(((c5_warn_only_policy [("OPT", "abc")] {} [] [] "OPT"
      (numV { base := { default? := some (Value.vNum 1), warnOnly := true } })
      (validationErr "OPT" "must be a valid number" (some "abc"))
      (by simp) (by simp) rfl rfl).1 rfl)).1,
   (((c5_warn_only_policy [("OPT", "abc")] {} [] [] "OPT"
      (numV { base := { default? := some (Value.vNum 1), warnOnly := true } })
      (validationErr "OPT" "must be a valid number" (some "abc"))
      (by simp) (by simp) rfl rfl).1 rfl)).2.2.2⟩

theorem cleanEnv_hard_error_unset (env : EnvMap) (copts : CleanOptions)
    (pre post : List (String × Validator)) (key : String) (vd : Validator) (e : EnvErr)
    (hpre : key ∉ pre.map Prod.fst) (hpost : key ∉ post.map Prod.fst)
    (hrw : vd.opts.requiredWhen? = none)
    (hparse : vd.parse (assocLookup env key) key env = .error e)
    (hw : vd.opts.warnOnly = false) :
    assocLookup (cleanEnv (pre ++ (key, vd) :: post) env copts).final.fields key = none := by
  obtain ⟨hlook, _, _, _⟩ := cleanEnv_middle env copts pre post key vd hpre hpost
  have hstep := processField_toParse env (runPass env {} pre) key vd hrw
  have hkeyfree : key ∉ (runPass env {} pre).result.map Prod.fst := by
    intro hmem
    obtain ⟨p, hp, hpk⟩ := List.mem_map.mp hmem
    exact hpre (hpk ▸ runPass_nil_keys env pre p hp)
  have hps := parseStep_err_hard env key vd
    { runPass env {} pre with
      warnings := (runPass env {} pre).warnings ++ depWarnings env key vd } e hparse hw
  rw [hps] at hstep
  rw [hlook, hstep]
  exact assocLookup_eq_none _ _ hkeyfree

/-- C10 counterexample: the claim's "returns undefined" conclusion fails
when the declared-but-failed field is named after an `Object.prototype`
member. A required field "toString" that fails with a hard error is left
unset in the result, so the guarded read falls through to the inherited
`Object.prototype.toString` member instead of `undefined` (still without
the undeclared-access warning). -/
theorem c10_counterexample :
    assocLookup (cleanEnv [("toString", strV {})] [] {}).final.fields "toString" = none ∧
    (cleanEnvGuarded [("toString", strV {})] [] {}).get "toString" =
      (.inherited "toString", false) ∧
    ReadResult.inherited "toString" ≠ ReadResult.undefined :=
  ⟨rfl, rfl, by simp⟩

/-- C10 (amended): a declared field whose validation produced a hard error
is left unset in the result mapping, and reading it through the guard never
fires the undeclared-access warning because the field name is among the
declared spec keys; the read returns `undefined` when the field name is not
an `Object.prototype` member name, and the inherited member otherwise. -/
theorem c10_failed_field_reads_silent (env : EnvMap) (copts : CleanOptions)
    (pre post : List (String × Validator)) (key : String) (vd : Validator) (e : EnvErr)
    (hpre : key ∉ pre.map Prod.fst) (hpost : key ∉ post.map Prod.fst)
    (hflag : key ∉ FLAG_KEYS)
    (hrw : vd.opts.requiredWhen? = none)
    (hparse : vd.parse (assocLookup env key) key env = .error e)
    (hw : vd.opts.warnOnly = false) :
    assocLookup (cleanEnv (pre ++ (key, vd) :: post) env copts).final.fields key = none ∧
    (key ∉ OBJECT_PROTOTYPE_KEYS →
      (cleanEnvGuarded (pre ++ (key, vd) :: post) env copts).get key = (.undefined, false)) ∧
    (key ∈ OBJECT_PROTOTYPE_KEYS →
      (cleanEnvGuarded (pre ++ (key, vd) :: post) env copts).get key =
        (.inherited key, false)) := by
  have hnone := cleanEnv_hard_error_unset env copts pre post key vd e hpre hpost hrw hparse hw
  have hkey : key ∈ (pre ++ (key, vd) :: post).map Prod.fst := by simp
  have h1 : key ≠ "isProduction" := fun h => hflag (by simp [FLAG_KEYS, h])
  have h2 : key ≠ "isDevelopment" := fun h => hflag (by simp [FLAG_KEYS, h])
  have h3 : key ≠ "isTest" := fun h => hflag (by simp [FLAG_KEYS, h])
  have hmemb : member key ((pre ++ (key, vd) :: post).map Prod.fst ++ FLAG_KEYS) = true :=
    (member_iff _ _).mpr (List.mem_append_left _ hkey)
  refine ⟨hnone, ?_, ?_⟩
  · intro hproto
    have hread : (cleanEnv (pre ++ (key, vd) :: post) env copts).final.read key = .undefined := by
      unfold FinalResult.read
      rw [if_neg h1, if_neg h2, if_neg h3, hnone]
      simp [member_eq_false _ _ hproto]
    show ((cleanEnv (pre ++ (key, vd) :: post) env copts).final.read key,
      !(member key ((pre ++ (key, vd) :: post).map Prod.fst ++ FLAG_KEYS)) &&
        !((cleanEnv (pre ++ (key, vd) :: post) env copts).final.inTarget key)) =
      (.undefined, false)
    rw [hread, hmemb]
    rfl
  · intro hproto
    have hread : (cleanEnv (pre ++ (key, vd) :: post) env copts).final.read key =
        .inherited key := by
      unfold FinalResult.read
      rw [if_neg h1, if_neg h2, if_neg h3, hnone]
      simp [(member_iff _ _).mpr hproto]
    show ((cleanEnv (pre ++ (key, vd) :: post) env copts).final.read key,
      !(member key ((pre ++ (key, vd) :: post).map Prod.fst ++ FLAG_KEYS)) &&
        !((cleanEnv (pre ++ (key, vd) :: post) env copts).final.inTarget key)) =
      (.inherited key, false)
    rw [hread, hmemb]
    rfl

/-- Witness for C10 at a concrete input: the required field "R" fails with
a missing-required hard error, stays unset, and reads back as `undefined`
with no warning. -/
theorem c10_witness :
    assocLookup (cleanEnv [("R", strV {})] [] {}).final.fields "R" = none ∧
    (cleanEnvGuarded [("R", strV {})] [] {}).get "R" = (.undefined, false) :=
  ⟨(c10_failed_field_reads_silent [] {} [] [] "R" (strV {}) (envMissingError "R")
      (by simp) (by simp) (by simp [FLAG_KEYS]) rfl rfl rfl).1,
   (c10_failed_field_reads_silent [] {} [] [] "R" (strV {}) (envMissingError "R")
      (by simp) (by simp) (by simp [FLAG_KEYS]) rfl rfl rfl).2.1
      (by simp [OBJECT_PROTOTYPE_KEYS])⟩

/-- C4: during the aggregate pass, a field with `requiredWhen` evaluates
its predicate against the partial result resolved by the earlier fields
(`(runPass env {} pre).result`).  If the predicate is false and the raw
value is absent or empty, type validation is skipped entirely: the field
receives its static `default` (possibly `undefined`) and contributes no
diagnostic at all.  If the predicate is true, the raw value is absent or
empty, and no tiered default applies (and the field is not `warnOnly`), a
hard missing-required error is recorded for the field. -/
theorem c4_required_when (env : EnvMap) (copts : CleanOptions)
    (pre post : List (String × Validator)) (key : String)
    (options : Opts) (parser : String → String → Except EnvErr Value)
    (pred : ResultMap → Bool)
    (hpre : key ∉ pre.map Prod.fst) (hpost : key ∉ post.map Prod.fst)
    (hrw : options.requiredWhen? = some pred) :
    ((pred (runPass env {} pre).result = false →
      (assocLookup env key = none ∨ assocLookup env key = some "") →
      assocLookup (cleanEnv (pre ++ (key, createValidator options parser) :: post) env
        copts).final.fields key = some options.default? ∧
      (∀ d ∈ (cleanEnv (pre ++ (key, createValidator options parser) :: post) env
            copts).errors ++
          (cleanEnv (pre ++ (key, createValidator options parser) :: post) env
            copts).warnings,
        d.key ≠ key)) ∧
    (pred (runPass env {} pre).result = true →
      (assocLookup env key = none ∨ assocLookup env key = some "") →
      (getNodeEnv env = "test" → options.testDefault? = none) →
      (getNodeEnv env ≠ "production" → options.devDefault? = none) →
      options.default? = none →
      options.warnOnly = false →
      mkVE key (createValidator options parser) (envMissingError key) ∈
        (cleanEnv (pre ++ (key, createValidator options parser) :: post) env copts).errors ∧
      (envMissingError key).message = "Missing required environment variable: " ++ key)) := by
  obtain ⟨hlook, herr, hwarn, hback⟩ :=
    cleanEnv_middle env copts pre post key (createValidator options parser) hpre hpost
  have hkeyfree : key ∉ (runPass env {} pre).result.map Prod.fst := by
    intro hmem
    obtain ⟨p, hp, hpk⟩ := List.mem_map.mp hmem
    exact hpre (hpk ▸ runPass_nil_keys env pre p hp)
  constructor
  · intro hpred hraw
    have hskip := processField_skip env (runPass env {} pre) key
      (createValidator options parser) pred hrw hpred hraw
    constructor
    · rw [hlook, hskip]
      dsimp only
      rw [assocLookup_append_left _ _ _ hkeyfree]
      simp only [assocLookup, if_pos rfl]
      rfl
    · intro d hd hdk
      rcases hback d hd hdk with hin | hin
      · rw [hskip] at hin
        dsimp only at hin
        exact hpre (hdk ▸ runPass_nil_error_keys env pre d hin)
      · rw [hskip] at hin
        dsimp only at hin
        rw [depWarnings_empty env key (createValidator options parser) hraw,
          List.append_nil] at hin
        exact hpre (hdk ▸ runPass_nil_warning_keys env pre d hin)
  · intro hpred hraw h1 h2 h3 hwo
    have hstep := processField_requiredParse env (runPass env {} pre) key
      (createValidator options parser) pred hrw hpred
    have hparse : (createValidator options parser).parse (assocLookup env key) key env =
        .error (envMissingError key) := by
      rw [createValidator_parse_empty options parser key env _ hraw]
      exact resolveDefaults_missing options key env h1 h2 h3
    have hps := parseStep_err_hard env key (createValidator options parser)
      { runPass env {} pre with
        warnings := (runPass env {} pre).warnings ++
          depWarnings env key (createValidator options parser) }
      (envMissingError key) hparse hwo
    rw [hps] at hstep
    refine ⟨?_, rfl⟩
    apply herr
    rw [hstep]
    dsimp only
    exact List.mem_append_right _ (List.mem_singleton.mpr rfl)

/-- Witness for C4 at a concrete input: with `USE_X` resolved to `false`,
the conditionally required `X_URL` is skipped and assigned its (absent)
static default, i.e. it is present in the result with value `undefined`. -/
theorem c4_witness :
    assocLookup (cleanEnv
      [("USE_X", boolV { default? := some (Value.vBool false) }),
       ("X_URL", createValidator
          { requiredWhen? := some (fun r =>
              match assocLookup r "USE_X" with
              | some (some v) => valueBeq v (Value.vBool true)
              | _ => false) }
          (fun v _ => Except.ok (Value.vStr v)))]
      [("USE_X", "false")] {}).final.fields "X_URL" = some none :=
  ((c4_required_when [("USE_X", "false")] {}
    [("USE_X", boolV { default? := some (Value.vBool false) })] [] "X_URL"
    { requiredWhen? := some (fun r =>
        match assocLookup r "USE_X" with
        | some (some v) => valueBeq v (Value.vBool true)
        | _ => false) }
    (fun v _ => Except.ok (Value.vStr v))
    (fun r =>
      match assocLookup r "USE_X" with
      | some (some v) => valueBeq v (Value.vBool true)
      | _ => false)
    (by simp) (by simp) rfl).1 rfl (Or.inl rfl)).1
